import Mathlib

/-!
# Verification of the ABRAXAS color-temperature daemon core

Shallow embedding of the sigmoid transition engine (`src/ABRAXAS/src/sigmoid.c`),
the daemon manual-override state machine (`src/c23/src/daemon.c`), the weather
cloud-cover heuristic (`src/c23/src/weather.c`), the override persistence layer
(`src/c23/src/config.c` with the JSON parser of `src/src/json.c`), the
multi-CRTC gamma setters (`gamma_drm.c` / `gamma_x11.c` / `gamma_wl.c` /
`gamma_auto.c`), and the ZIP-code lookup normalization (`src/c23/src/zipdb.c`).

C `double` arithmetic is idealized as real numbers; the C `(int)` cast of a
double is truncation toward zero, modelled by `cint`.  Machine integers are
modelled as unbounded `Int` (all values arising here fit in the C types).

The file is organised as: all definitions first, then all theorems.
-/

namespace Abraxas

/-! ## Definitions -/

/-! ### Constants (src/c23/include/weather.h) -/

def TEMP_DAY_CLEAR : ℤ := 6500
def TEMP_DAY_DARK : ℤ := 4500
def TEMP_NIGHT : ℤ := 2900
def DAWN_DURATION : ℤ := 90
def DUSK_DURATION : ℤ := 120
def SIGMOID_STEEPNESS : ℝ := 6

/-- C `(int)` cast of a `double`: truncation toward zero. -/
noncomputable def cint (x : ℝ) : ℤ := if 0 ≤ x then ⌊x⌋ else ⌈x⌉

/-! ### Sigmoid engine (src/ABRAXAS/src/sigmoid.c) -/

/-- `sigmoid_raw(x, steepness) = 1.0 / (1.0 + exp(-steepness * x))` -/
noncomputable def sigmoid_raw (x steepness : ℝ) : ℝ :=
  1 / (1 + Real.exp (-steepness * x))

/-- `sigmoid_norm`: normalized sigmoid, `(raw - low) / (high - low)`. -/
noncomputable def sigmoid_norm (x steepness : ℝ) : ℝ :=
  let raw := sigmoid_raw x steepness
  let low := sigmoid_raw (-1) steepness
  let high := sigmoid_raw 1 steepness
  (raw - low) / (high - low)

/-- `calculate_solar_temp` (sigmoid.c lines 28-57): map minutes-from-sunrise /
minutes-to-sunset to a Kelvin temperature through the dawn / dusk sigmoid
windows. -/
noncomputable def calculate_solar_temp (minutes_from_sunrise minutes_to_sunset : ℝ)
    (is_dark_mode : Bool) : ℤ :=
  let day_temp : ℤ := if is_dark_mode then TEMP_DAY_DARK else TEMP_DAY_CLEAR
  let night_temp : ℤ := TEMP_NIGHT
  let dawn_half : ℝ := (DAWN_DURATION : ℝ) / 2
  let dusk_half : ℝ := (DUSK_DURATION : ℝ) / 2
  if |minutes_from_sunrise| < dawn_half then
    cint ((night_temp : ℝ) + ((day_temp : ℝ) - (night_temp : ℝ)) *
      sigmoid_norm (minutes_from_sunrise / dawn_half) SIGMOID_STEEPNESS)
  else if |minutes_to_sunset| < dusk_half then
    cint ((night_temp : ℝ) + ((day_temp : ℝ) - (night_temp : ℝ)) *
      sigmoid_norm (minutes_to_sunset / dusk_half) SIGMOID_STEEPNESS)
  else if dawn_half ≤ minutes_from_sunrise ∧ dusk_half ≤ minutes_to_sunset then
    day_temp
  else
    night_temp

/-- `calculate_manual_temp` (sigmoid.c lines 59-74): manual-override
interpolation.  `elapsed_min = difftime(now, start_time) / 60.0`. -/
noncomputable def calculate_manual_temp (start_temp target_temp : ℤ)
    (start_time : ℤ) (duration_min : ℤ) (now : ℤ) : ℤ :=
  if duration_min ≤ 0 then target_temp
  else
    let elapsed_min : ℝ := ((now : ℝ) - (start_time : ℝ)) / 60
    if (duration_min : ℝ) ≤ elapsed_min then target_temp
    else
      let x : ℝ := 2 * (elapsed_min / (duration_min : ℝ)) - 1
      cint ((start_temp : ℝ) + ((target_temp : ℝ) - (start_temp : ℝ)) *
        sigmoid_norm x SIGMOID_STEEPNESS)

/-- The day temperature selected by `dark_mode` (sigmoid.c line 31). -/
def day_temp_sel (is_dark_mode : Bool) : ℤ :=
  if is_dark_mode then TEMP_DAY_DARK else TEMP_DAY_CLEAR

/-- `sun_times_t` (solar.h): sunrise/sunset as epoch seconds plus a validity
flag (`valid = false` on polar days). -/
structure SunTimes where
  sunrise : ℤ
  sunset : ℤ
  valid : Bool
deriving DecidableEq, Repr

/-- `next_transition_resume` (sigmoid.c lines 76-99).  The ephemeris
`solar_sunrise_sunset(t, lat, lon)` is abstracted as an oracle
`sun : ℤ → SunTimes` (the location is fixed inside the oracle); the body
mirrors the C source line by line. -/
def next_transition_resume (sun : ℤ → SunTimes) (now : ℤ) : ℤ :=
  let st := sun now
  if st.valid = false then now + 86400
  else
    let dawn_window_start := st.sunrise - (DAWN_DURATION / 2) * 60
    let dusk_window_start := st.sunset - (DUSK_DURATION / 2) * 60
    let resume_dawn := dawn_window_start - 15 * 60
    let resume_dusk := dusk_window_start - 15 * 60
    let best : ℤ := if resume_dawn > now then resume_dawn else 0
    let best : ℤ :=
      if resume_dusk > now ∧ (best = 0 ∨ resume_dusk < best) then resume_dusk else best
    if best > 0 then best
    else
      let st2 := sun (now + 86400)
      if st2.valid = false then now + 86400
      else st2.sunrise - (DAWN_DURATION / 2 + 15) * 60

/-- Concrete ephemeris oracle: high-latitude summer evening.  On the query
day sunrise was long past and sunset was 17 minutes ago; on the next day
sunrise falls 33 minutes after `now` (sunrise just past local midnight, as
at ~65°N near the solstice).  All days are non-polar (`valid = true`). -/
def sunLateNight : ℤ → SunTimes := fun t =>
  if t < 1700043200 then ⟨1699920000, 1699999000, true⟩
  else ⟨1700002000, 1700087000, true⟩

/-- Concrete ephemeris oracle: ordinary mid-latitude morning, both of today's
transition windows still ahead and tomorrow's dawn after them. -/
def sunMorning : ℤ → SunTimes := fun t =>
  if t < 1700043200 then ⟨1700010000, 1700050000, true⟩
  else ⟨1700096400, 1700136400, true⟩

/-! ### Daemon manual-override state machine (src/c23/src/daemon.c) -/

/-- `override_state_t` (config.h): the five persisted override fields. -/
structure OverrideState where
  active : Bool
  target_temp : ℤ
  duration_minutes : ℤ
  issued_at : ℤ
  start_temp : ℤ
deriving DecidableEq, Repr

/-- The manual-mode block of `daemon_state_t` plus the last-applied
temperature (daemon.h / daemon.c). -/
structure DaemonState where
  manual_mode : Bool
  manual_issued_at : ℤ
  manual_target_temp : ℤ
  manual_duration_min : ℤ
  manual_start_time : ℤ
  manual_start_temp : ℤ
  manual_resume_time : ℤ
  last_temp : ℤ
  last_temp_valid : Bool
deriving DecidableEq, Repr

/-- Filesystem side effect of a daemon step on the override file. -/
inductive FileEffect
  | keep
  | save (ovr : OverrideState)
  | clear
deriving DecidableEq, Repr

/-- The override-changed handler of `event_loop_uring` (daemon.c lines
257-295).  `solarT` stands for the value `solar_temperature(now, lat, lon,
&weather)` would return; the ephemeris is the oracle `sun`. -/
def handle_override_changed (sun : ℤ → SunTimes) (solarT : ℤ) (s : DaemonState)
    (od : OverrideState) (now : ℤ) : DaemonState × FileEffect :=
  if od.active = true ∧ od.issued_at ≠ s.manual_issued_at then
    let start_temp := if s.last_temp_valid then s.last_temp else solarT
    let s' : DaemonState :=
      { s with
        manual_mode := true
        manual_issued_at := od.issued_at
        manual_target_temp := od.target_temp
        manual_duration_min := od.duration_minutes
        manual_start_time := od.issued_at
        manual_start_temp := start_temp
        manual_resume_time := next_transition_resume sun now }
    let eff :=
      if od.start_temp = 0 then FileEffect.save { od with start_temp := start_temp }
      else FileEffect.keep
    (s', eff)
  else if od.active = false ∧ s.manual_mode = true then
    ({ s with manual_mode := false, manual_issued_at := 0 }, FileEffect.clear)
  else
    (s, FileEffect.keep)

/-- The auto-resume exit inside the tick (daemon.c lines 331-340).  The C
guard is `elapsed >= duration && resume_time > 0 && now >= resume_time` with
`elapsed = difftime(now, start_time)/60.0`; over the reals
`(now - start)/60 ≥ d  ↔  60·d ≤ now - start` for integer `d`. -/
def tick_auto_resume (s : DaemonState) (now : ℤ) : DaemonState × FileEffect :=
  if s.manual_mode = true ∧ 60 * s.manual_duration_min ≤ now - s.manual_start_time
      ∧ 0 < s.manual_resume_time ∧ s.manual_resume_time ≤ now then
    ({ s with manual_mode := false, manual_issued_at := 0 }, FileEffect.clear)
  else
    (s, FileEffect.keep)

/-- Startup override recovery (daemon.c lines 457-486, `daemon_run`). -/
def recover_override (sun : ℤ → SunTimes) (solarT : ℤ) (s : DaemonState)
    (ovr : OverrideState) (now : ℤ) : DaemonState × FileEffect :=
  if ovr.active = true then
    if 60 * ovr.duration_minutes ≤ now - ovr.issued_at then
      (s, FileEffect.clear)
    else
      let start_temp := if ovr.start_temp = 0 then solarT else ovr.start_temp
      let eff :=
        if ovr.start_temp = 0 then FileEffect.save { ovr with start_temp := solarT }
        else FileEffect.keep
      ({ s with
          manual_mode := true
          manual_target_temp := ovr.target_temp
          manual_duration_min := ovr.duration_minutes
          manual_issued_at := ovr.issued_at
          manual_start_time := ovr.issued_at
          manual_start_temp := start_temp
          manual_resume_time := next_transition_resume sun now }, eff)
  else
    (s, FileEffect.keep)

/-- Ephemeris oracle with the dusk window imminent: sunset 85 minutes after
the query instant, so the dusk-resume candidate is only 10 minutes away. -/
def sunImminentDusk : ℤ → SunTimes := fun _ => ⟨1699960000, 1700005100, true⟩

/-- A daemon state in solar mode with a valid last-applied temperature. -/
def initState : DaemonState := ⟨false, 0, 0, 0, 0, 0, 0, 6500, true⟩

/-- An override asking for a 120-minute transition issued at 1700000000. -/
def cexOverride : OverrideState := ⟨true, 3000, 120, 1700000000, 500⟩

/-- A manual-mode daemon state whose transition and resume instant have both
elapsed at 1700000000. -/
def demoTick : DaemonState :=
  ⟨true, 1699990000, 3500, 5, 1699990000, 6500, 1699998000, 3500, true⟩

/-- An override whose `issued_at` matches `demoTick`'s last observation. -/
def demoOverride : OverrideState := ⟨true, 3500, 5, 1699990000, 6500⟩

/-! ### Cloud-cover heuristic (src/c23/src/weather.c, cloud_cover_from_forecast) -/

/-- C `tolower` in the "C" locale, restricted to ASCII. -/
def c_tolower (c : Char) : Char :=
  if 'A' ≤ c ∧ c ≤ 'Z' then Char.ofNat (c.toNat + 32) else c

/-- Does `needle` occur as a prefix of `hay`?  (The inner loop of `strstr`.) -/
def list_prefix : List Char → List Char → Bool
  | [], _ => true
  | _ :: _, [] => false
  | c :: cs, d :: ds => if c = d then list_prefix cs ds else false

/-- `strstr(hay, needle) != NULL`: substring occurrence. -/
def contains_sub (needle : List Char) : List Char → Bool
  | [] => list_prefix needle []
  | c :: rest => list_prefix needle (c :: rest) || contains_sub needle rest

/-- The lowercase copy made by `cloud_cover_from_forecast`:
`char lower[128]` holds at most the first 127 characters of the forecast. -/
def lower_trunc (s : List Char) : List Char := (s.take 127).map c_tolower

def kwRain : List Char := ['r', 'a', 'i', 'n']
def kwStorm : List Char := ['s', 't', 'o', 'r', 'm']
def kwSnow : List Char := ['s', 'n', 'o', 'w']
def kwDrizzle : List Char := ['d', 'r', 'i', 'z', 'z', 'l', 'e']
def kwShowers : List Char := ['s', 'h', 'o', 'w', 'e', 'r', 's']
def kwOvercast : List Char := ['o', 'v', 'e', 'r', 'c', 'a', 's', 't']
def kwMostlyCloudy : List Char :=
  ['m', 'o', 's', 't', 'l', 'y', ' ', 'c', 'l', 'o', 'u', 'd', 'y']
def kwCloudy : List Char := ['c', 'l', 'o', 'u', 'd', 'y']
def kwPartly : List Char := ['p', 'a', 'r', 't', 'l', 'y']
def kwMostlySunny : List Char :=
  ['m', 'o', 's', 't', 'l', 'y', ' ', 's', 'u', 'n', 'n', 'y']
def kwMostlyClear : List Char :=
  ['m', 'o', 's', 't', 'l', 'y', ' ', 'c', 'l', 'e', 'a', 'r']
def kwSunny : List Char := ['s', 'u', 'n', 'n', 'y']
def kwClear : List Char := ['c', 'l', 'e', 'a', 'r']

/-- The decision chain shared by the implementation and the spec table. -/
def cloud_table (lower : List Char) : ℤ :=
  if contains_sub kwRain lower || contains_sub kwStorm lower ||
      contains_sub kwSnow lower || contains_sub kwDrizzle lower ||
      contains_sub kwShowers lower then 95
  else if contains_sub kwOvercast lower then 90
  else if contains_sub kwMostlyCloudy lower then 75
  else if contains_sub kwCloudy lower then 90
  else if contains_sub kwPartly lower then 50
  else if contains_sub kwMostlySunny lower || contains_sub kwMostlyClear lower then 25
  else if contains_sub kwSunny lower || contains_sub kwClear lower then 10
  else 0

/-- `cloud_cover_from_forecast` (weather.c lines 124-166): lowercases into a
128-byte buffer (truncating at 127 characters) and walks the keyword table. -/
def cloud_cover_from_forecast (forecast : List Char) : ℤ :=
  cloud_table (lower_trunc forecast)

/-- Modelled from the spec table (section 4.6): keyword-priority matching,
case-insensitive, over the whole forecast string (no truncation). -/
def spec_cloud_cover (forecast : List Char) : ℤ :=
  cloud_table (forecast.map c_tolower)

/-- A forecast longer than 127 bytes whose only keyword sits past the
truncation point. -/
def longForecast : List Char := List.replicate 126 ' ' ++ kwRain

/-- A short forecast for the witness. -/
def demoForecast : List Char := ['M', 'o', 's', 't', 'l', 'y', ' ', 'C', 'l', 'o', 'u', 'd', 'y']

/-! ### ZIP lookup normalization (src/c23/src/zipdb.c) -/

/-- Write `src` into `buf` at byte offset `off` (the `memcpy` into the
`memset`-initialized buffer). -/
def write_at (buf : List Char) (off : ℕ) (src : List Char) : List Char :=
  buf.take off ++ src ++ buf.drop (off + src.length)

/-- zip5 normalization (zipdb.c lines 31-36): `memset(zip5, '0', 5)` then
`memcpy(zip5 + (5 - zlen), zipcode, zlen)` with `zlen = min(strlen, 5)`. -/
def normalize_zip (z : List Char) : List Char :=
  let zlen := min z.length 5
  write_at (List.replicate 5 '0') (5 - zlen) (z.take zlen)

/-- One 13-byte record of `us_zipcodes.bin`. -/
structure ZipEntry where
  zip : List Char
  lat : ℚ
  lon : ℚ
deriving DecidableEq, Repr

/-- `memcmp` on equal-length byte strings. -/
def memcmp_chars : List Char → List Char → Ordering
  | [], [] => Ordering.eq
  | [], _ :: _ => Ordering.lt
  | _ :: _, [] => Ordering.gt
  | c :: cs, d :: ds =>
    if c.toNat < d.toNat then Ordering.lt
    else if d.toNat < c.toNat then Ordering.gt
    else memcmp_chars cs ds

/-- The binary-search loop of `zipdb_lookup` (zipdb.c lines 56-73), with fuel
bounding the iteration count (the C loop terminates since the interval
shrinks; `count + 1` iterations always suffice). -/
def zipdb_bsearch (entries : List ZipEntry) (key : List Char) :
    ℕ → ℤ → ℤ → Option (ℚ × ℚ)
  | 0, _, _ => none
  | fuel + 1, low, high =>
    if low ≤ high then
      let mid := low + (high - low) / 2
      match entries.get? mid.toNat with
      | none => none
      | some e =>
        match memcmp_chars e.zip key with
        | Ordering.eq => some (e.lat, e.lon)
        | Ordering.lt => zipdb_bsearch entries key fuel (mid + 1) high
        | Ordering.gt => zipdb_bsearch entries key fuel low (mid - 1)
    else none

/-- `zipdb_lookup` (zipdb.c lines 25-77) over an abstract decoded table. -/
def zipdb_lookup (entries : List ZipEntry) (zipcode : List Char) : Option (ℚ × ℚ) :=
  zipdb_bsearch entries (normalize_zip zipcode) (entries.length + 1) 0
    ((entries.length : ℤ) - 1)

/-! ### Multi-CRTC gamma setters (gamma_drm.c / gamma_x11.c / gamma_wl.c /
gamma_auto.c)

Each backend's `set_temperature` runs the same loop: for every CRTC passing
the backend's usability test, run the per-CRTC set (abstracted as
`outcome i : ℤ`, `0 = MERIDIAN_OK`, negative = error code), counting
successes and remembering the last error; return `MERIDIAN_OK` when
`success_count > 0`, else `last_err` (initialized to `MERIDIAN_OK`). -/

/-- The common loop body: processes CRTC indices `0 .. n-1` in order and
returns `(success_count, last_err)`. -/
def set_temp_fold (attempt : ℕ → Bool) (outcome : ℕ → ℤ) : ℕ → ℕ × ℤ
  | 0 => (0, 0)
  | n + 1 =>
    let acc := set_temp_fold attempt outcome n
    if attempt n then
      if outcome n = 0 then (acc.1 + 1, acc.2) else (acc.1, outcome n)
    else acc

/-- `meridian_drm_set_temperature` (gamma_drm.c lines 347-367): a CRTC is
attempted iff `gamma_size > 1`. -/
def drm_set_temperature (gamma_size : ℕ → ℤ) (outcome : ℕ → ℤ) (crtc_count : ℕ) : ℤ :=
  let r := set_temp_fold (fun i => decide (1 < gamma_size i)) outcome crtc_count
  if 0 < r.1 then 0 else r.2

/-- `meridian_x11_set_temperature` (gamma_x11.c lines 274-293): a CRTC is
attempted iff `gamma_size > 0`. -/
def x11_set_temperature (gamma_size : ℕ → ℤ) (outcome : ℕ → ℤ) (crtc_count : ℕ) : ℤ :=
  let r := set_temp_fold (fun i => decide (0 < gamma_size i)) outcome crtc_count
  if 0 < r.1 then 0 else r.2

/-- `meridian_wl_set_temperature` (gamma_wl.c lines 316-335): an output is
attempted iff it has not failed and `gamma_size > 0`. -/
def wl_set_temperature (failed : ℕ → Bool) (gamma_size : ℕ → ℤ) (outcome : ℕ → ℤ)
    (output_count : ℕ) : ℤ :=
  let r := set_temp_fold (fun i => !failed i && decide (0 < gamma_size i)) outcome output_count
  if 0 < r.1 then 0 else r.2

/-- `meridian_gnome_set_temperature` (gamma_auto.c lines 631-651): every CRTC
is attempted. -/
def gnome_set_temperature (outcome : ℕ → ℤ) (crtc_count : ℕ) : ℤ :=
  let r := set_temp_fold (fun _ => true) outcome crtc_count
  if 0 < r.1 then 0 else r.2

/-! ### Override persistence (src/c23/src/config.c with src/src/json.c)

The JSON number value is modelled exactly as a rational (`strtod` without
rounding); the C `(int)` / `(time_t)` casts of a `double` truncate toward
zero, modelled by `qint`. -/

def digitChar (d : ℕ) : Char := Char.ofNat (48 + d)

/-- printf `%u`-style decimal rendering of a natural number. -/
def natToChars (n : ℕ) : List Char :=
  if n = 0 then ['0'] else ((Nat.digits 10 n).map digitChar).reverse

/-- printf `%d` / `%ld` rendering of an integer. -/
def intToChars (z : ℤ) : List Char :=
  if z < 0 then '-' :: natToChars z.natAbs else natToChars z.toNat

def kActive : List Char := ['a', 'c', 't', 'i', 'v', 'e']
def kTargetTemp : List Char := ['t', 'a', 'r', 'g', 'e', 't', '_', 't', 'e', 'm', 'p']
def kDurationMinutes : List Char :=
  ['d', 'u', 'r', 'a', 't', 'i', 'o', 'n', '_', 'm', 'i', 'n', 'u', 't', 'e', 's']
def kIssuedAt : List Char := ['i', 's', 's', 'u', 'e', 'd', '_', 'a', 't']
def kStartTemp : List Char := ['s', 't', 'a', 'r', 't', '_', 't', 'e', 'm', 'p']

def tTrue : List Char := ['t', 'r', 'u', 'e']
def tFalse : List Char := ['f', 'a', 'l', 's', 'e']

/-- The `  "key": ` prefix of each line written by `config_save_override`. -/
def key_colon (k : List Char) : List Char := [' ', ' ', '"'] ++ k ++ ['"', ':', ' ']

/-- `config_save_override` (config.c lines 166-180): the exact bytes written
by the fixed-order fprintf sequence. -/
def config_save_override_text (o : OverrideState) : List Char :=
  ['{', '\n'] ++
  key_colon kActive ++ (if o.active then tTrue else tFalse) ++ [',', '\n'] ++
  key_colon kTargetTemp ++ intToChars o.target_temp ++ [',', '\n'] ++
  key_colon kDurationMinutes ++ intToChars o.duration_minutes ++ [',', '\n'] ++
  key_colon kIssuedAt ++ intToChars o.issued_at ++ [',', '\n'] ++
  key_colon kStartTemp ++ intToChars o.start_temp ++ ['\n'] ++
  ['}', '\n']

/-- `json_value_t` (json.c): parsed JSON tree. -/
inductive JsonValue where
  | null
  | bool (b : Bool)
  | num (q : ℚ)
  | str (s : List Char)
  | arr (elems : List JsonValue)
  | obj (pairs : List (List Char × JsonValue))

def is_ws (c : Char) : Bool := c = ' ' || c = '\t' || c = '\n' || c = '\r'

/-- `skip_ws` (json.c lines 45-49). -/
def skip_ws : List Char → List Char
  | [] => []
  | c :: rest => if is_ws c then skip_ws rest else c :: rest

/-- One hex digit (the body of `hex4`, json.c lines 58-70). -/
def hexval (c : Char) : Option ℕ :=
  if '0' ≤ c ∧ c ≤ '9' then some (c.toNat - 48)
  else if 'a' ≤ c ∧ c ≤ 'f' then some (c.toNat - 87)
  else if 'A' ≤ c ∧ c ≤ 'F' then some (c.toNat - 55)
  else none

/-- `utf8_encode` (json.c lines 72-97): the bytes appended to the output
buffer for a decoded code point. -/
def utf8_encode (cp : ℕ) : List Char :=
  if cp ≤ 0x7F then [Char.ofNat cp]
  else if cp ≤ 0x7FF then
    [Char.ofNat (0xC0 + cp / 64), Char.ofNat (0x80 + cp % 64)]
  else if cp ≤ 0xFFFF then
    [Char.ofNat (0xE0 + cp / 4096), Char.ofNat (0x80 + cp / 64 % 64),
     Char.ofNat (0x80 + cp % 64)]
  else if cp ≤ 0x10FFFF then
    [Char.ofNat (0xF0 + cp / 262144), Char.ofNat (0x80 + cp / 4096 % 64),
     Char.ofNat (0x80 + cp / 64 % 64), Char.ofNat (0x80 + cp % 64)]
  else []

/-- The second-pass escape table of `parse_string_raw` (json.c lines
146-157); unknown escapes copy the character itself. -/
def esc_char (c : Char) : Char :=
  if c = 'b' then Char.ofNat 8
  else if c = 'f' then Char.ofNat 12
  else if c = 'n' then '\n'
  else if c = 'r' then Char.ofNat 13
  else if c = 't' then '\t'
  else c

/-- Four hex digits (`hex4`, json.c lines 58-70); fails when the input runs
out (in C the terminating NUL is not a hex digit). -/
def read_u4 : List Char → Option (ℕ × List Char)
  | a :: b :: c :: d :: rest =>
    match hexval a, hexval b, hexval c, hexval d with
    | some x, some y, some z, some w => some (((x * 16 + y) * 16 + z) * 16 + w, rest)
    | _, _, _, _ => none
  | _ => none

/-- Decode one escape sequence after the backslash: the characters appended
to the output and the remainder (json.c lines 105-135 validation merged with
lines 146-157 building). -/
def read_escape : List Char → Option (List Char × List Char)
  | [] => none
  | e :: rest2 =>
    if e = 'u' then
      match read_u4 rest2 with
      | some (cp, rest3) =>
        if 0xD800 ≤ cp ∧ cp ≤ 0xDBFF then
          match rest3 with
          | b1 :: b2 :: rest3' =>
            if b1 = '\\' ∧ b2 = 'u' then
              match read_u4 rest3' with
              | some (lo, rest4) =>
                if 0xDC00 ≤ lo ∧ lo ≤ 0xDFFF then
                  some (utf8_encode (0x10000 + (cp - 0xD800) * 1024 + (lo - 0xDC00)), rest4)
                else none
              | none => none
            else none
          | _ => none
        else some (utf8_encode cp, rest3)
      | none => none
    else some ([esc_char e], rest2)

/-- `parse_string_raw` (json.c lines 99-177), with the measuring pass and the
building pass merged into one traversal (the C passes validate and build the
same characters).  The opening quote is already consumed; returns the decoded
string and the remainder past the closing quote, or `none` on a missing
closing quote or malformed `\\u` escape, exactly as the C validation.  The
`fuel` argument makes the recursion structural; every step consumes at least
one character, so `length + 1` fuel always suffices. -/
def parse_string_raw : ℕ → List Char → Option (List Char × List Char)
  | 0, _ => none
  | fuel + 1, s =>
    match s with
    | [] => none
    | c :: rest =>
      if c = '"' then some ([], rest)
      else if c = '\\' then
        match read_escape rest with
        | some (decoded, rest2) =>
          (match parse_string_raw fuel rest2 with
           | some (out, rem) => some (decoded ++ out, rem)
           | none => none)
        | none => none
      else
        match parse_string_raw fuel rest with
        | some (out, rem) => some (c :: out, rem)
        | none => none

/-- The longest digit prefix (digit values) and the remainder. -/
def take_digits : List Char → List ℕ × List Char
  | [] => ([], [])
  | c :: rest =>
    if '0' ≤ c ∧ c ≤ '9' then
      let (ds, r) := take_digits rest
      ((c.toNat - 48) :: ds, r)
    else ([], c :: rest)

/-- Horner evaluation of a most-significant-first digit list. -/
def digitsVal (ds : List ℕ) : ℕ := ds.foldl (fun a d => a * 10 + d) 0

/-- The optional exponent part accepted by `strtod`; without digits after
`e`/`E` nothing is consumed. -/
def parse_exponent (s : List Char) : ℤ × List Char :=
  match s with
  | [] => (0, [])
  | c :: rest =>
    if c = 'e' ∨ c = 'E' then
      match rest with
      | '-' :: r2 =>
        let (ds, r3) := take_digits r2
        if ds.isEmpty then (0, c :: rest) else (-(digitsVal ds : ℤ), r3)
      | '+' :: r2 =>
        let (ds, r3) := take_digits r2
        if ds.isEmpty then (0, c :: rest) else ((digitsVal ds : ℤ), r3)
      | _ =>
        let (ds, r3) := take_digits rest
        if ds.isEmpty then (0, c :: rest) else ((digitsVal ds : ℤ), r3)
    else (0, c :: rest)

/-- `parse_number` (json.c lines 194-208): `strtod` on the decimal grammar
`[sign] digits [. digits] [e [sign] digits]` with the value kept exact in ℚ.
`none` iff `strtod` consumes nothing (`end == start`). -/
def parse_number_q (s : List Char) : Option (ℚ × List Char) :=
  let sign_s1 : ℚ × List Char :=
    match s with
    | c :: rest => if c = '-' then (-1, rest) else if c = '+' then (1, rest) else (1, s)
    | [] => (1, s)
  let sign := sign_s1.1
  let s1 := sign_s1.2
  let ids_s2 := take_digits s1
  let ids := ids_s2.1
  let s2 := ids_s2.2
  let fds_s3 : List ℕ × List Char :=
    match s2 with
    | c :: rest => if c = '.' then take_digits rest else ([], s2)
    | [] => ([], s2)
  let fds := fds_s3.1
  let s3 := fds_s3.2
  if ids.isEmpty ∧ fds.isEmpty then none
  else
    let mantissa : ℚ := (digitsVal ids : ℚ) + (digitsVal fds : ℚ) / ((10 : ℚ) ^ fds.length)
    let e_s4 := parse_exponent s3
    some (sign * mantissa * (10 : ℚ) ^ e_s4.1, e_s4.2)

/-- `parse_literal` (json.c lines 212-231). -/
def parse_literal (s : List Char) : Option (JsonValue × List Char) :=
  match s with
  | 't' :: 'r' :: 'u' :: 'e' :: rest => some (.bool true, rest)
  | 'f' :: 'a' :: 'l' :: 's' :: 'e' :: rest => some (.bool false, rest)
  | 'n' :: 'u' :: 'l' :: 'l' :: rest => some (.null, rest)
  | _ => none

mutual

/-- `parse_value` (json.c lines 344-360): skip whitespace, dispatch on the
first character.  The `fuel` argument makes the C recursion structural; every
recursive call consumes input, so `length + 1` fuel always suffices. -/
def parse_value : ℕ → List Char → Option (JsonValue × List Char)
  | 0, _ => none
  | fuel + 1, s =>
    match skip_ws s with
    | [] => none
    | c :: rest =>
      if c = '"' then
        match parse_string_raw (rest.length + 1) rest with
        | some (str, rem) => some (.str str, rem)
        | none => none
      else if c = '{' then parse_object fuel ('{' :: rest)
      else if c = '[' then parse_array fuel ('[' :: rest)
      else if c = 't' ∨ c = 'f' ∨ c = 'n' then parse_literal (c :: rest)
      else if c = '-' ∨ ('0' ≤ c ∧ c ≤ '9') then
        match parse_number_q (c :: rest) with
        | some (q, rem) => some (.num q, rem)
        | none => none
      else none

/-- `parse_object` (json.c lines 235-299): consume `{`, handle the empty
object, else run the member loop. -/
def parse_object : ℕ → List Char → Option (JsonValue × List Char)
  | fuel, s =>
    match s with
    | c :: rest =>
      if c = '{' then
        match skip_ws rest with
        | c2 :: rem => if c2 = '}' then some (.obj [], rem)
            else parse_members fuel (c2 :: rem) []
        | [] => parse_members fuel [] []
      else none
    | [] => none

/-- The member loop of `parse_object`. -/
def parse_members : ℕ → List Char → List (List Char × JsonValue) →
    Option (JsonValue × List Char)
  | 0, _, _ => none
  | fuel + 1, s, acc =>
    match skip_ws s with
    | [] => none
    | c :: rest =>
      if c = '"' then
        match parse_string_raw (rest.length + 1) rest with
        | some (key, r1) =>
          (match skip_ws r1 with
           | [] => none
           | c2 :: r3 =>
             if c2 = ':' then
               match parse_value fuel (skip_ws r3) with
               | some (v, r4) =>
                 (match skip_ws r4 with
                  | [] => none
                  | c3 :: r6 =>
                    if c3 = ',' then parse_members fuel r6 (acc ++ [(key, v)])
                    else if c3 = '}' then some (.obj (acc ++ [(key, v)]), r6)
                    else none)
               | none => none
             else none)
        | none => none
      else none

/-- `parse_array` (json.c lines 303-340). -/
def parse_array : ℕ → List Char → Option (JsonValue × List Char)
  | fuel, s =>
    match s with
    | c :: rest =>
      if c = '[' then
        match skip_ws rest with
        | c2 :: rem => if c2 = ']' then some (.arr [], rem)
            else parse_elements fuel (c2 :: rem) []
        | [] => parse_elements fuel [] []
      else none
    | [] => none

/-- The element loop of `parse_array`. -/
def parse_elements : ℕ → List Char → List JsonValue →
    Option (JsonValue × List Char)
  | 0, _, _ => none
  | fuel + 1, s, acc =>
    match parse_value fuel (skip_ws s) with
    | some (v, r1) =>
      (match skip_ws r1 with
       | [] => none
       | c :: r2 =>
         if c = ',' then parse_elements fuel r2 (acc ++ [v])
         else if c = ']' then some (.arr (acc ++ [v]), r2)
         else none)
    | none => none

end

/-- `json_parse` (json.c lines 364-380): parse one value, then demand only
whitespace to the end. -/
def json_parse (text : List Char) : Option JsonValue :=
  match parse_value (text.length + 1) text with
  | some (v, rest) => if skip_ws rest = [] then some v else none
  | none => none

/-- `json_get` (json.c lines 382-392): first pair with a matching key. -/
def json_get (v : JsonValue) (key : List Char) : Option JsonValue :=
  match v with
  | .obj pairs => (pairs.find? (fun p => decide (p.1 = key))).map (fun p => p.2)
  | _ => none

/-- `json_number` (json.c lines 436-440). -/
def json_number : Option JsonValue → ℚ
  | some (.num q) => q
  | _ => 0

/-- `json_bool` (json.c lines 442-446). -/
def json_bool : Option JsonValue → Bool
  | some (.bool b) => b
  | _ => false

/-- C `(int)` / `(time_t)` cast of a `double` value: truncation toward 0. -/
def qint (q : ℚ) : ℤ := if 0 ≤ q then ⌊q⌋ else ⌈q⌉

/-- `config_load_override` (config.c lines 120-164) applied to in-memory
text: parse; on failure return the zero-initialized default; otherwise read
each present field tolerantly. -/
def config_load_override_text (text : List Char) : OverrideState :=
  match json_parse text with
  | none => ⟨false, 0, 0, 0, 0⟩
  | some root =>
    let o0 : OverrideState := ⟨false, 0, 0, 0, 0⟩
    let o1 := match json_get root kActive with
      | some v => { o0 with active := json_bool (some v) }
      | none => o0
    let o2 := match json_get root kTargetTemp with
      | some v => { o1 with target_temp := qint (json_number (some v)) }
      | none => o1
    let o3 := match json_get root kDurationMinutes with
      | some v => { o2 with duration_minutes := qint (json_number (some v)) }
      | none => o2
    let o4 := match json_get root kIssuedAt with
      | some v => { o3 with issued_at := qint (json_number (some v)) }
      | none => o3
    let o5 := match json_get root kStartTemp with
      | some v => { o4 with start_temp := qint (json_number (some v)) }
      | none => o4
    o5

/-- Tail of the serialized override starting at the `start_temp` value. -/
def tail5 (o : OverrideState) : List Char := intToChars o.start_temp ++ '\n' :: '}' :: ['\n']

/-- The `start_temp` member line. -/
def seg5 (o : OverrideState) : List Char :=
  ' ' :: ' ' :: '"' :: (kStartTemp ++ '"' :: ':' :: ' ' :: tail5 o)

/-- Tail starting at the `issued_at` value. -/
def tail4 (o : OverrideState) : List Char := intToChars o.issued_at ++ ',' :: '\n' :: seg5 o

/-- The `issued_at` member line. -/
def seg4 (o : OverrideState) : List Char :=
  ' ' :: ' ' :: '"' :: (kIssuedAt ++ '"' :: ':' :: ' ' :: tail4 o)

/-- Tail starting at the `duration_minutes` value. -/
def tail3 (o : OverrideState) : List Char :=
  intToChars o.duration_minutes ++ ',' :: '\n' :: seg4 o

/-- The `duration_minutes` member line. -/
def seg3 (o : OverrideState) : List Char :=
  ' ' :: ' ' :: '"' :: (kDurationMinutes ++ '"' :: ':' :: ' ' :: tail3 o)

/-- Tail starting at the `target_temp` value. -/
def tail2 (o : OverrideState) : List Char := intToChars o.target_temp ++ ',' :: '\n' :: seg3 o

/-- The `target_temp` member line. -/
def seg2 (o : OverrideState) : List Char :=
  ' ' :: ' ' :: '"' :: (kTargetTemp ++ '"' :: ':' :: ' ' :: tail2 o)

/-- Tail starting at the `active` value. -/
def tail1 (o : OverrideState) : List Char :=
  (if o.active then tTrue else tFalse) ++ ',' :: '\n' :: seg2 o

/-- The `active` member line. -/
def seg1 (o : OverrideState) : List Char :=
  ' ' :: ' ' :: '"' :: (kActive ++ '"' :: ':' :: ' ' :: tail1 o)

/-! ## Theorems -/

/-! ### Helper lemmas: `cint` -/

theorem cint_intCast (n : ℤ) : cint (n : ℝ) = n := by
  unfold cint
  split <;> simp

theorem cint_mono : Monotone cint := by
  intro x y hxy
  unfold cint
  split <;> split
  · exact Int.floor_le_floor hxy
  · exact absurd (le_trans (by assumption) hxy) (by assumption)
  · calc ⌈x⌉ ≤ ⌈(0:ℝ)⌉ := Int.ceil_le_ceil (le_of_lt (lt_of_not_le (by assumption)))
      _ = 0 := by simp
      _ ≤ ⌊y⌋ := Int.floor_nonneg.mpr (by assumption)
  · exact Int.ceil_le_ceil hxy

theorem cint_le_ceil (x : ℝ) : cint x ≤ ⌈x⌉ := by
  unfold cint; split
  · exact Int.floor_le_ceil x
  · exact le_refl _

theorem floor_le_cint (x : ℝ) : ⌊x⌋ ≤ cint x := by
  unfold cint; split
  · exact le_refl _
  · exact Int.floor_le_ceil x

/-! ### Helper lemmas: sigmoid -/

theorem one_add_exp_pos (t : ℝ) : 0 < 1 + Real.exp t := by positivity

theorem sigmoid_raw_strictMono {k : ℝ} (hk : 0 < k) :
    StrictMono (fun x => sigmoid_raw x k) := by
  intro x y hxy
  unfold sigmoid_raw
  have h1 : Real.exp (-k * y) < Real.exp (-k * x) := by
    apply Real.exp_lt_exp.mpr
    nlinarith
  have h2 : 0 < 1 + Real.exp (-k * y) := one_add_exp_pos _
  have h3 : 0 < 1 + Real.exp (-k * x) := one_add_exp_pos _
  rw [div_lt_div_iff h3 h2]
  nlinarith

theorem sigmoid_raw_lt {k : ℝ} (hk : 0 < k) : sigmoid_raw (-1) k < sigmoid_raw 1 k :=
  sigmoid_raw_strictMono hk (by norm_num)

/-- Complementarity: `raw(-x) + raw(x) = 1`. -/
theorem sigmoid_raw_neg_add (x k : ℝ) : sigmoid_raw (-x) k + sigmoid_raw x k = 1 := by
  unfold sigmoid_raw
  have ha : 0 < 1 + Real.exp (-k * -x) := one_add_exp_pos _
  have hb : 0 < 1 + Real.exp (-k * x) := one_add_exp_pos _
  have hab : Real.exp (-k * -x) * Real.exp (-k * x) = 1 := by
    rw [← Real.exp_add]; ring_nf; exact Real.exp_zero
  field_simp
  ring_nf
  ring_nf at hab
  nlinarith [hab]

/-- `S(-1, k) = 0` (exact, any steepness: numerator vanishes). -/
theorem sigmoid_norm_neg_one (k : ℝ) : sigmoid_norm (-1) k = 0 := by
  unfold sigmoid_norm
  simp

/-- `S(1, k) = 1` (exact for `k > 0`). -/
theorem sigmoid_norm_one {k : ℝ} (hk : 0 < k) : sigmoid_norm 1 k = 1 := by
  unfold sigmoid_norm
  have h := sigmoid_raw_lt hk
  exact div_self (by linarith)

/-- `S(0, k) = 1/2` (exact for `k > 0`): `raw(0) = 1/2` is the midpoint of
`raw(-1)` and `raw(1)` by complementarity. -/
theorem sigmoid_norm_zero {k : ℝ} (hk : 0 < k) : sigmoid_norm 0 k = 1 / 2 := by
  unfold sigmoid_norm
  have hc := sigmoid_raw_neg_add 1 k
  have h0 : sigmoid_raw 0 k = 1 / 2 := by
    unfold sigmoid_raw; norm_num
  have hlt := sigmoid_raw_lt hk
  rw [h0]
  rw [div_eq_div_iff (by linarith) (by norm_num : (2:ℝ) ≠ 0)]
  linarith

theorem sigmoid_norm_mono {k : ℝ} (hk : 0 < k) :
    Monotone (fun x => sigmoid_norm x k) := by
  intro x y hxy
  unfold sigmoid_norm
  have hlt := sigmoid_raw_lt hk
  have hmono := (sigmoid_raw_strictMono hk).monotone hxy
  have hd : (0:ℝ) < sigmoid_raw 1 k - sigmoid_raw (-1) k := by linarith
  exact (div_le_div_iff_of_pos_right hd).mpr (sub_le_sub_right hmono (sigmoid_raw (-1) k))

theorem sigmoid_norm_lt_one {k : ℝ} (hk : 0 < k) {x : ℝ} (hx : x < 1) :
    sigmoid_norm x k < 1 := by
  unfold sigmoid_norm
  have hlt := sigmoid_raw_lt hk
  have hx1 : sigmoid_raw x k < sigmoid_raw 1 k := sigmoid_raw_strictMono hk hx
  rw [div_lt_one (by linarith)]
  linarith

theorem sigmoid_norm_neg_lt {k : ℝ} (hk : 0 < k) {x : ℝ} (hx : -1 < x) :
    0 < sigmoid_norm x k := by
  unfold sigmoid_norm
  have hlt := sigmoid_raw_lt hk
  have hx1 : sigmoid_raw (-1) k < sigmoid_raw x k := sigmoid_raw_strictMono hk hx
  exact div_pos (by linarith) (by linarith)

theorem steepness_pos : (0:ℝ) < SIGMOID_STEEPNESS := by norm_num [SIGMOID_STEEPNESS]

/-- Unfolding the dawn branch of `calculate_solar_temp`. -/
theorem solar_dawn_branch (dark : Bool) (m mts : ℝ) (h : |m| < 45) :
    calculate_solar_temp m mts dark =
      cint ((TEMP_NIGHT : ℝ) + ((day_temp_sel dark : ℝ) - (TEMP_NIGHT : ℝ)) *
        sigmoid_norm (m / 45) SIGMOID_STEEPNESS) := by
  unfold calculate_solar_temp day_temp_sel
  have h' : |m| < (DAWN_DURATION : ℝ) / 2 := by norm_num [DAWN_DURATION]; exact h
  rw [if_pos h']
  norm_num [DAWN_DURATION]

/-- Unfolding the dusk branch of `calculate_solar_temp`. -/
theorem solar_dusk_branch (dark : Bool) (m mts : ℝ) (hm : ¬ |m| < 45) (h : |mts| < 60) :
    calculate_solar_temp m mts dark =
      cint ((TEMP_NIGHT : ℝ) + ((day_temp_sel dark : ℝ) - (TEMP_NIGHT : ℝ)) *
        sigmoid_norm (mts / 60) SIGMOID_STEEPNESS) := by
  unfold calculate_solar_temp day_temp_sel
  have hm' : ¬ |m| < (DAWN_DURATION : ℝ) / 2 := by
    rw [show (DAWN_DURATION : ℝ) / 2 = 45 by norm_num [DAWN_DURATION]]; exact hm
  have h' : |mts| < (DUSK_DURATION : ℝ) / 2 := by norm_num [DUSK_DURATION]; exact h
  rw [if_neg hm', if_pos h']
  norm_num [DUSK_DURATION]

/-- Midpoint reduction: the sigmoid value at the window center. -/
theorem solar_mid_value (dark : Bool) :
    cint ((TEMP_NIGHT : ℝ) + ((day_temp_sel dark : ℝ) - (TEMP_NIGHT : ℝ)) *
        sigmoid_norm 0 SIGMOID_STEEPNESS) = (TEMP_NIGHT + day_temp_sel dark) / 2 := by
  rw [sigmoid_norm_zero steepness_pos]
  cases dark <;>
    simp only [day_temp_sel, TEMP_NIGHT, TEMP_DAY_DARK, TEMP_DAY_CLEAR,
      Bool.false_eq_true, if_false, if_true, reduceIte] <;>
    norm_num <;>
    [exact cint_intCast 4700; exact cint_intCast 3700]

/-- Unfolding the full-day branch of `calculate_solar_temp`. -/
theorem solar_day_branch (dark : Bool) (m mts : ℝ) (hm : ¬ |m| < 45)
    (hmts : ¬ |mts| < 60) (h : 45 ≤ m ∧ 60 ≤ mts) :
    calculate_solar_temp m mts dark = day_temp_sel dark := by
  unfold calculate_solar_temp day_temp_sel
  have hm' : ¬ |m| < (DAWN_DURATION : ℝ) / 2 := by
    rw [show (DAWN_DURATION : ℝ) / 2 = 45 by norm_num [DAWN_DURATION]]; exact hm
  have hmts' : ¬ |mts| < (DUSK_DURATION : ℝ) / 2 := by
    rw [show (DUSK_DURATION : ℝ) / 2 = 60 by norm_num [DUSK_DURATION]]; exact hmts
  have h' : (DAWN_DURATION : ℝ) / 2 ≤ m ∧ (DUSK_DURATION : ℝ) / 2 ≤ mts := by
    constructor
    · rw [show (DAWN_DURATION : ℝ) / 2 = 45 by norm_num [DAWN_DURATION]]; exact h.1
    · rw [show (DUSK_DURATION : ℝ) / 2 = 60 by norm_num [DUSK_DURATION]]; exact h.2
  rw [if_neg hm', if_neg hmts', if_pos h']

/-- Unfolding the night branch of `calculate_solar_temp`. -/
theorem solar_night_branch (dark : Bool) (m mts : ℝ) (hm : ¬ |m| < 45)
    (hmts : ¬ |mts| < 60) (h : ¬ (45 ≤ m ∧ 60 ≤ mts)) :
    calculate_solar_temp m mts dark = TEMP_NIGHT := by
  unfold calculate_solar_temp
  have hm' : ¬ |m| < (DAWN_DURATION : ℝ) / 2 := by
    rw [show (DAWN_DURATION : ℝ) / 2 = 45 by norm_num [DAWN_DURATION]]; exact hm
  have hmts' : ¬ |mts| < (DUSK_DURATION : ℝ) / 2 := by
    rw [show (DUSK_DURATION : ℝ) / 2 = 60 by norm_num [DUSK_DURATION]]; exact hmts
  have h' : ¬ ((DAWN_DURATION : ℝ) / 2 ≤ m ∧ (DUSK_DURATION : ℝ) / 2 ≤ mts) := by
    rw [show (DAWN_DURATION : ℝ) / 2 = 45 by norm_num [DAWN_DURATION],
      show (DUSK_DURATION : ℝ) / 2 = 60 by norm_num [DUSK_DURATION]]
    exact h
  rw [if_neg hm', if_neg hmts', if_neg h']

/-- C1: `calculate_solar_temp` at the window centers returns the midpoint of
the night temperature and the selected day temperature (4700 K clear, 3700 K
dark, exactly, hence within 1 K), and at the window edges
`minutes_since_sunrise = ±dawn_half` / `minutes_until_sunset = ±dusk_half`
(outside the other window) it returns exactly the day or night temperature. -/
theorem calculate_solar_temp_edges (dark : Bool) (m mts : ℝ) :
    ((TEMP_NIGHT + day_temp_sel dark) / 2 = if dark then 3700 else 4700) ∧
    (¬ |mts| < 60 →
      calculate_solar_temp 0 mts dark = (TEMP_NIGHT + day_temp_sel dark) / 2) ∧
    (¬ |m| < 45 →
      calculate_solar_temp m 0 dark = (TEMP_NIGHT + day_temp_sel dark) / 2) ∧
    (60 ≤ mts → calculate_solar_temp 45 mts dark = day_temp_sel dark) ∧
    (¬ |mts| < 60 → calculate_solar_temp (-45) mts dark = TEMP_NIGHT) ∧
    (45 ≤ m → calculate_solar_temp m 60 dark = day_temp_sel dark) ∧
    (¬ |m| < 45 → calculate_solar_temp m (-60) dark = TEMP_NIGHT) := by
  refine ⟨?_, ?_, ?_, ?_, ?_, ?_, ?_⟩
  · cases dark <;> simp [day_temp_sel, TEMP_NIGHT, TEMP_DAY_DARK, TEMP_DAY_CLEAR]
  · intro _
    rw [solar_dawn_branch dark 0 mts (by norm_num)]
    rw [show (0:ℝ) / 45 = 0 by norm_num]
    exact solar_mid_value dark
  · intro hm
    rw [solar_dusk_branch dark m 0 hm (by norm_num)]
    rw [show (0:ℝ) / 60 = 0 by norm_num]
    exact solar_mid_value dark
  · intro hmts
    apply solar_day_branch dark 45 mts (by norm_num)
    · rw [abs_of_nonneg (by linarith : (0:ℝ) ≤ mts)]; linarith
    · exact ⟨by norm_num, hmts⟩
  · intro hmts
    apply solar_night_branch dark (-45) mts (by norm_num) hmts
    push_neg
    intro hc
    norm_num at hc
  · intro hm
    apply solar_day_branch dark m 60 ?_ (by norm_num) ⟨hm, by norm_num⟩
    rw [abs_of_nonneg (by linarith : (0:ℝ) ≤ m)]; linarith
  · intro hm
    apply solar_night_branch dark m (-60) hm (by norm_num)
    push_neg
    intro _
    norm_num

/-- Witness for C1 at concrete inputs. -/
theorem calculate_solar_temp_edges_witness :
    calculate_solar_temp 0 100 false = 4700 ∧
    calculate_solar_temp 0 100 true = 3700 ∧
    calculate_solar_temp 45 60 false = 6500 ∧
    calculate_solar_temp (-45) 100 false = 2900 := by
  have hf := calculate_solar_temp_edges false 45 100
  have ht := calculate_solar_temp_edges true 45 100
  refine ⟨?_, ?_, ?_, ?_⟩
  · rw [hf.2.1 (by norm_num)]; decide
  · rw [ht.2.1 (by norm_num)]; decide
  · rw [(calculate_solar_temp_edges false 45 60).2.2.2.1 (by norm_num)]; decide
  · exact hf.2.2.2.2.1 (by norm_num)

/-- Interior unfolding of `calculate_manual_temp`. -/
theorem manual_temp_interior (start target t d n : ℤ) (hd : 0 < d)
    (hin : ¬ (d : ℝ) ≤ ((n : ℝ) - (t : ℝ)) / 60) :
    calculate_manual_temp start target t d n =
      cint ((start : ℝ) + ((target : ℝ) - (start : ℝ)) *
        sigmoid_norm (2 * ((((n : ℝ) - (t : ℝ)) / 60) / (d : ℝ)) - 1) SIGMOID_STEEPNESS) := by
  unfold calculate_manual_temp
  rw [if_neg (by exact_mod_cast not_le.mpr hd), if_neg hin]

/-- Elapsed-time monotonicity transfers to the sigmoid argument. -/
theorem manual_x_mono {t d : ℤ} (hd : 0 < d) {n₁ n₂ : ℤ} (h : n₁ ≤ n₂) :
    2 * ((((n₁ : ℝ) - (t : ℝ)) / 60) / (d : ℝ)) - 1 ≤
      2 * ((((n₂ : ℝ) - (t : ℝ)) / 60) / (d : ℝ)) - 1 := by
  have hd' : (0:ℝ) < (d : ℝ) := by exact_mod_cast hd
  have h' : ((n₁ : ℝ) - (t : ℝ)) / 60 ≤ ((n₂ : ℝ) - (t : ℝ)) / 60 :=
    (div_le_div_iff_of_pos_right (by norm_num : (0:ℝ) < 60)).mpr
      (by exact_mod_cast sub_le_sub_right (Int.cast_le.mpr h) (t : ℝ))
  have h2 := (div_le_div_iff_of_pos_right hd').mpr h'
  linarith

/-- Monotone in `now` when `target > start` (non-decreasing). -/
theorem calculate_manual_temp_mono_up (start target t d : ℤ) (hd : 0 < d)
    (hst : start < target) {n₁ n₂ : ℤ} (h : n₁ ≤ n₂) :
    calculate_manual_temp start target t d n₁ ≤ calculate_manual_temp start target t d n₂ := by
  have hd' : (0:ℝ) < (d : ℝ) := by exact_mod_cast hd
  have he : ((n₁ : ℝ) - (t : ℝ)) / 60 ≤ ((n₂ : ℝ) - (t : ℝ)) / 60 :=
    (div_le_div_iff_of_pos_right (by norm_num : (0:ℝ) < 60)).mpr
      (by exact_mod_cast sub_le_sub_right (Int.cast_le.mpr h) (t : ℝ))
  by_cases h₂ : (d : ℝ) ≤ ((n₂ : ℝ) - (t : ℝ)) / 60
  · have h₂' : calculate_manual_temp start target t d n₂ = target := by
      unfold calculate_manual_temp
      rw [if_neg (by exact_mod_cast not_le.mpr hd), if_pos h₂]
    rw [h₂']
    by_cases h₁ : (d : ℝ) ≤ ((n₁ : ℝ) - (t : ℝ)) / 60
    · have : calculate_manual_temp start target t d n₁ = target := by
        unfold calculate_manual_temp
        rw [if_neg (by exact_mod_cast not_le.mpr hd), if_pos h₁]
      rw [this]
    · rw [manual_temp_interior start target t d n₁ hd h₁]
      have hx : 2 * ((((n₁ : ℝ) - (t : ℝ)) / 60) / (d : ℝ)) - 1 < 1 := by
        have : (((n₁ : ℝ) - (t : ℝ)) / 60) / (d : ℝ) < 1 :=
          (div_lt_one hd').mpr (lt_of_not_le h₁)
        linarith
      have hS := sigmoid_norm_lt_one steepness_pos hx
      have hst' : (0:ℝ) < (target : ℝ) - (start : ℝ) := by
        have : (start : ℝ) < (target : ℝ) := by exact_mod_cast hst
        linarith
      have hval : (start : ℝ) + ((target : ℝ) - (start : ℝ)) *
          sigmoid_norm (2 * ((((n₁ : ℝ) - (t : ℝ)) / 60) / (d : ℝ)) - 1) SIGMOID_STEEPNESS ≤
          (target : ℝ) := by nlinarith
      exact le_trans (cint_le_ceil _) (Int.ceil_le.mpr hval)
  · have h₁ : ¬ (d : ℝ) ≤ ((n₁ : ℝ) - (t : ℝ)) / 60 := fun hc => h₂ (le_trans hc he)
    rw [manual_temp_interior start target t d n₁ hd h₁,
      manual_temp_interior start target t d n₂ hd h₂]
    apply cint_mono
    have hS := sigmoid_norm_mono steepness_pos (@manual_x_mono t d hd n₁ n₂ h)
    have hst' : (0:ℝ) ≤ (target : ℝ) - (start : ℝ) := by
      have : (start : ℝ) < (target : ℝ) := by exact_mod_cast hst
      linarith
    nlinarith

/-- Monotone in `now` when `target < start` (non-increasing). -/
theorem calculate_manual_temp_mono_down (start target t d : ℤ) (hd : 0 < d)
    (hst : target < start) {n₁ n₂ : ℤ} (h : n₁ ≤ n₂) :
    calculate_manual_temp start target t d n₂ ≤ calculate_manual_temp start target t d n₁ := by
  have hd' : (0:ℝ) < (d : ℝ) := by exact_mod_cast hd
  have he : ((n₁ : ℝ) - (t : ℝ)) / 60 ≤ ((n₂ : ℝ) - (t : ℝ)) / 60 :=
    (div_le_div_iff_of_pos_right (by norm_num : (0:ℝ) < 60)).mpr
      (by exact_mod_cast sub_le_sub_right (Int.cast_le.mpr h) (t : ℝ))
  by_cases h₂ : (d : ℝ) ≤ ((n₂ : ℝ) - (t : ℝ)) / 60
  · have h₂' : calculate_manual_temp start target t d n₂ = target := by
      unfold calculate_manual_temp
      rw [if_neg (by exact_mod_cast not_le.mpr hd), if_pos h₂]
    rw [h₂']
    by_cases h₁ : (d : ℝ) ≤ ((n₁ : ℝ) - (t : ℝ)) / 60
    · have : calculate_manual_temp start target t d n₁ = target := by
        unfold calculate_manual_temp
        rw [if_neg (by exact_mod_cast not_le.mpr hd), if_pos h₁]
      rw [this]
    · rw [manual_temp_interior start target t d n₁ hd h₁]
      have hx : 2 * ((((n₁ : ℝ) - (t : ℝ)) / 60) / (d : ℝ)) - 1 < 1 := by
        have : (((n₁ : ℝ) - (t : ℝ)) / 60) / (d : ℝ) < 1 :=
          (div_lt_one hd').mpr (lt_of_not_le h₁)
        linarith
      have hS := sigmoid_norm_lt_one steepness_pos hx
      have hst' : (target : ℝ) - (start : ℝ) < 0 := by
        have : (target : ℝ) < (start : ℝ) := by exact_mod_cast hst
        linarith
      have hval : (target : ℝ) ≤ (start : ℝ) + ((target : ℝ) - (start : ℝ)) *
          sigmoid_norm (2 * ((((n₁ : ℝ) - (t : ℝ)) / 60) / (d : ℝ)) - 1) SIGMOID_STEEPNESS := by
        nlinarith
      exact le_trans (Int.le_floor.mpr hval) (floor_le_cint _)
  · have h₁ : ¬ (d : ℝ) ≤ ((n₁ : ℝ) - (t : ℝ)) / 60 := fun hc => h₂ (le_trans hc he)
    rw [manual_temp_interior start target t d n₁ hd h₁,
      manual_temp_interior start target t d n₂ hd h₂]
    apply cint_mono
    have hS := sigmoid_norm_mono steepness_pos (@manual_x_mono t d hd n₁ n₂ h)
    have hst' : (target : ℝ) - (start : ℝ) ≤ 0 := by
      have : (target : ℝ) < (start : ℝ) := by exact_mod_cast hst
      linarith
    nlinarith

/-- C2: the manual-override interpolation is instant at duration 0, starts at
`start_temp` at `now = start_time`, reaches `target_temp` at
`start_time + duration·60` seconds, and for `start ≠ target` is monotone in
`now` (non-decreasing when `target > start`, non-increasing when
`target < start`). -/
theorem calculate_manual_temp_spec (start target t d now₁ now₂ : ℤ) :
    calculate_manual_temp start target t 0 t = target ∧
    (0 < d → calculate_manual_temp start target t d t = start) ∧
    (0 < d → calculate_manual_temp start target t d (t + d * 60) = target) ∧
    (0 < d → start < target → now₁ ≤ now₂ →
      calculate_manual_temp start target t d now₁ ≤ calculate_manual_temp start target t d now₂) ∧
    (0 < d → target < start → now₁ ≤ now₂ →
      calculate_manual_temp start target t d now₂ ≤ calculate_manual_temp start target t d now₁) := by
  refine ⟨?_, ?_, ?_, ?_, ?_⟩
  · unfold calculate_manual_temp
    rw [if_pos le_rfl]
  · intro hd
    have hz : ((t : ℝ) - (t : ℝ)) / 60 = 0 := by ring
    have hin : ¬ (d : ℝ) ≤ ((t : ℝ) - (t : ℝ)) / 60 := by
      rw [hz]; push_neg; exact_mod_cast hd
    rw [manual_temp_interior start target t d t hd hin, hz]
    rw [show 2 * ((0:ℝ) / (d : ℝ)) - 1 = -1 by rw [zero_div]; ring]
    rw [sigmoid_norm_neg_one]
    rw [show (start : ℝ) + ((target : ℝ) - (start : ℝ)) * 0 = ((start : ℤ) : ℝ) by ring]
    exact cint_intCast start
  · intro hd
    unfold calculate_manual_temp
    rw [if_neg (by exact_mod_cast not_le.mpr hd)]
    have : (((t + d * 60 : ℤ) : ℝ) - (t : ℝ)) / 60 = (d : ℝ) := by
      push_cast; ring
    rw [this, if_pos le_rfl]
  · intro hd hst h
    exact calculate_manual_temp_mono_up start target t d hd hst h
  · intro hd hst h
    exact calculate_manual_temp_mono_down start target t d hd hst h

/-- Witness for C2 at concrete inputs. -/
theorem calculate_manual_temp_spec_witness :
    calculate_manual_temp 6500 2900 0 0 0 = 2900 ∧
    calculate_manual_temp 6500 2900 0 30 0 = 6500 ∧
    calculate_manual_temp 6500 2900 0 30 1800 = 2900 ∧
    calculate_manual_temp 6500 2900 0 30 900 ≤ calculate_manual_temp 6500 2900 0 30 600 := by
  have h := calculate_manual_temp_spec 6500 2900 0 30 600 900
  refine ⟨(calculate_manual_temp_spec 6500 2900 0 0 0 0).1, h.2.1 (by decide), ?_, ?_⟩
  · have := h.2.2.1 (by decide)
    norm_num at this
    exact this
  · exact h.2.2.2.2 (by decide) (by decide) (by decide)

/-- C3: the normalized sigmoid satisfies `S(-1, k) = 0` and `S(1, k) = 1`
exactly for every steepness `k > 0` (hence in particular to within 1e-12;
there is no endpoint drift in the idealized real-number semantics). -/
theorem sigmoid_norm_endpoints (k : ℝ) (hk : 0 < k) :
    sigmoid_norm (-1) k = 0 ∧ sigmoid_norm 1 k = 1 :=
  ⟨sigmoid_norm_neg_one k, sigmoid_norm_one hk⟩

/-- Witness for C3 at the steepness used by the program. -/
theorem sigmoid_norm_endpoints_witness :
    (0:ℝ) < 6 ∧ sigmoid_norm (-1) 6 = 0 ∧ sigmoid_norm 1 6 = 1 :=
  ⟨by norm_num, (sigmoid_norm_endpoints 6 (by norm_num)).1,
    (sigmoid_norm_endpoints 6 (by norm_num)).2⟩

/-- C4 counterexample: with the (realizable, non-polar) ephemeris
`sunLateNight`, both of today's resume candidates lie in the past and even
tomorrow's dawn candidate (sunrise 33 minutes after `now`, minus the
60-minute lead) precedes `now`, so `next_transition_resume` returns an
instant in the past — refuting `next_transition_resume(now, lat, lon) > now`
"always". -/
theorem next_transition_resume_counterexample :
    (sunLateNight 1700000000).valid = true ∧
    (sunLateNight (1700000000 + 86400)).valid = true ∧
    next_transition_resume sunLateNight 1700000000 = 1699998400 ∧
    next_transition_resume sunLateNight 1700000000 < 1700000000 := by
  refine ⟨rfl, rfl, ?_, ?_⟩ <;> decide

/-- C4 (amended): for a non-negative epoch instant and a sane ephemeris —
both days non-polar, tomorrow's dawn-resume candidate in the future and no
earlier than today's candidates — `next_transition_resume` exceeds `now` and
equals the earliest of the three candidates that exceeds `now`; and on a
polar-invalid day it returns `now + 86400`. -/
theorem next_transition_resume_spec (sun : ℤ → SunTimes) (now : ℤ) (hnow : 0 ≤ now) :
    ((sun now).valid = false → next_transition_resume sun now = now + 86400) ∧
    ((sun now).valid = true → (sun (now + 86400)).valid = true →
      now < (sun (now + 86400)).sunrise - 3600 →
      (sun now).sunrise - 3600 ≤ (sun (now + 86400)).sunrise - 3600 →
      (sun now).sunset - 4500 ≤ (sun (now + 86400)).sunrise - 3600 →
      (now < next_transition_resume sun now ∧
       (next_transition_resume sun now = (sun now).sunrise - 3600 ∨
        next_transition_resume sun now = (sun now).sunset - 4500 ∨
        next_transition_resume sun now = (sun (now + 86400)).sunrise - 3600) ∧
       (now < (sun now).sunrise - 3600 →
         next_transition_resume sun now ≤ (sun now).sunrise - 3600) ∧
       (now < (sun now).sunset - 4500 →
         next_transition_resume sun now ≤ (sun now).sunset - 4500) ∧
       next_transition_resume sun now ≤ (sun (now + 86400)).sunrise - 3600)) := by
  constructor
  · intro hv
    simp only [next_transition_resume]
    rw [hv]
    simp
  · intro hv hv2 htd hda hdu
    simp only [next_transition_resume]
    rw [hv, hv2]
    simp only [Bool.true_eq_false, if_false]
    rw [show (DAWN_DURATION / 2) * 60 = (2700 : ℤ) by decide,
      show (DUSK_DURATION / 2) * 60 = (3600 : ℤ) by decide,
      show (DAWN_DURATION / 2 + 15) * 60 = (3600 : ℤ) by decide]
    split_ifs <;> omega

/-- Witness for C4 (amended) with the concrete morning ephemeris: the result
is today's dawn-resume candidate, in the future. -/
theorem next_transition_resume_spec_witness :
    1700000000 < next_transition_resume sunMorning 1700000000 :=
  (((next_transition_resume_spec sunMorning 1700000000 (by decide)).2
    (by decide) (by decide) (by decide) (by decide) (by decide))).1

/-- C5 counterexample: entering manual mode ten minutes before the dusk
window with a 120-minute transition stores a `manual_resume_time` that is
non-zero yet earlier than `start_time + duration_minutes` — refuting the
claimed invariant at the override-entry step itself. -/
theorem manual_resume_invariant_counterexample :
    ((handle_override_changed sunImminentDusk 6500 initState cexOverride
        1700000000).1.manual_mode = true) ∧
    ((handle_override_changed sunImminentDusk 6500 initState cexOverride
        1700000000).1.manual_resume_time ≠ 0) ∧
    ¬ ((handle_override_changed sunImminentDusk 6500 initState cexOverride
        1700000000).1.manual_start_time +
       60 * (handle_override_changed sunImminentDusk 6500 initState cexOverride
        1700000000).1.manual_duration_min <
       (handle_override_changed sunImminentDusk 6500 initState cexOverride
        1700000000).1.manual_resume_time) := by
  refine ⟨?_, ?_, ?_⟩ <;> decide

/-- C5 (amended): `manual_resume_time` is zero or the next-transition-resume
instant — which may precede `start_time + duration·60` — and the event loop
auto-exits manual mode only when the duration has elapsed AND
`now ≥ manual_resume_time > 0`; the tick step never touches manual mode
otherwise, and startup recovery stores the same next-transition-resume
instant. -/
theorem manual_resume_spec (sun : ℤ → SunTimes) (solarT : ℤ) (s : DaemonState)
    (od : OverrideState) (now : ℤ) :
    (od.active = true → od.issued_at ≠ s.manual_issued_at →
      (handle_override_changed sun solarT s od now).1.manual_resume_time =
        next_transition_resume sun now ∧
      (handle_override_changed sun solarT s od now).1.manual_start_time = od.issued_at) ∧
    ((tick_auto_resume s now).1.manual_mode = false → s.manual_mode = true →
      60 * s.manual_duration_min ≤ now - s.manual_start_time ∧
      0 < s.manual_resume_time ∧ s.manual_resume_time ≤ now) ∧
    ((tick_auto_resume s now).1 = s ∨
      (tick_auto_resume s now).1 = { s with manual_mode := false, manual_issued_at := 0 }) ∧
    (od.active = true → ¬ 60 * od.duration_minutes ≤ now - od.issued_at →
      (recover_override sun solarT s od now).1.manual_resume_time =
        next_transition_resume sun now) := by
  refine ⟨?_, ?_, ?_, ?_⟩
  · intro ha hne
    unfold handle_override_changed
    rw [if_pos ⟨ha, hne⟩]
    exact ⟨rfl, rfl⟩
  · intro hexit hman
    unfold tick_auto_resume at hexit
    by_cases hc : s.manual_mode = true ∧ 60 * s.manual_duration_min ≤ now - s.manual_start_time
        ∧ 0 < s.manual_resume_time ∧ s.manual_resume_time ≤ now
    · exact hc.2
    · rw [if_neg hc] at hexit
      exact absurd hexit (by simp [hman])
  · unfold tick_auto_resume
    split_ifs
    · right; rfl
    · left; rfl
  · intro ha hfresh
    unfold recover_override
    rw [if_pos ha, if_neg hfresh]

/-- Witness for C5 (amended): the override entry stores the transition-resume
instant, and the auto-exit only fires with the duration elapsed. -/
theorem manual_resume_spec_witness :
    (handle_override_changed sunImminentDusk 6500 initState cexOverride
      1700000000).1.manual_resume_time = next_transition_resume sunImminentDusk 1700000000 ∧
    60 * demoTick.manual_duration_min ≤ 1700000000 - demoTick.manual_start_time := by
  constructor
  · exact ((manual_resume_spec sunImminentDusk 6500 initState cexOverride
      1700000000).1 (by decide) (by decide)).1
  · exact ((manual_resume_spec sunImminentDusk 6500 demoTick demoOverride
      1700000000).2.1 (by decide) (by decide)).1

/-- C9: when the override file changes but the loaded override is `active`
with the same `issued_at` the daemon last observed, the handler leaves the
entire daemon state unchanged and performs no file write — rewriting the same
override file does not restart the transition. -/
theorem handle_override_changed_noop (sun : ℤ → SunTimes) (solarT : ℤ)
    (s : DaemonState) (od : OverrideState) (now : ℤ)
    (hact : od.active = true) (hiss : od.issued_at = s.manual_issued_at) :
    handle_override_changed sun solarT s od now = (s, FileEffect.keep) := by
  unfold handle_override_changed
  rw [if_neg (by simp [hiss]), if_neg (by simp [hact])]

/-- Witness for C9: rewriting the very override `demoTick` is executing is a
no-op. -/
theorem handle_override_changed_noop_witness :
    handle_override_changed sunImminentDusk 6500 demoTick demoOverride 1700000000 =
      (demoTick, FileEffect.keep) :=
  handle_override_changed_noop sunImminentDusk 6500 demoTick demoOverride 1700000000
    (by decide) (by decide)

/-- C6 counterexample: the implementation lowercases into a 128-byte buffer,
so a forecast whose only keyword begins at byte 126 ("rain" truncated to "r")
yields 0 where the spec table demands 95 — refuting the claim for *every*
forecast string. -/
theorem cloud_cover_counterexample :
    cloud_cover_from_forecast longForecast = 0 ∧
    spec_cloud_cover longForecast = 95 ∧
    cloud_cover_from_forecast longForecast ≠ spec_cloud_cover longForecast := by
  refine ⟨?_, ?_, ?_⟩ <;> decide

/-- C6 (amended): for every forecast of at most 127 bytes (the buffer bound),
the derived cloud cover equals the spec's keyword-priority table applied
case-insensitively — in particular "mostly cloudy" decides before "cloudy"
and "mostly sunny"/"mostly clear" before "sunny"/"clear". -/
theorem cloud_cover_matches_table (s : List Char) (h : s.length ≤ 127) :
    cloud_cover_from_forecast s = spec_cloud_cover s := by
  unfold cloud_cover_from_forecast spec_cloud_cover lower_trunc
  rw [List.take_of_length_le h]

/-- Witness for C6 (amended) on "Mostly Cloudy". -/
theorem cloud_cover_matches_table_witness :
    cloud_cover_from_forecast demoForecast = spec_cloud_cover demoForecast ∧
    cloud_cover_from_forecast demoForecast = 75 :=
  ⟨cloud_cover_matches_table demoForecast (by decide), by decide⟩

/-- The normalized key always has exactly five bytes. -/
theorem normalize_zip_length (z : List Char) : (normalize_zip z).length = 5 := by
  unfold normalize_zip write_at
  simp [List.length_take, List.length_drop]

/-- Long inputs: truncated to the first five characters. -/
theorem normalize_zip_long (z : List Char) (h : 5 ≤ z.length) :
    normalize_zip z = z.take 5 := by
  unfold normalize_zip write_at
  rw [min_eq_right h]
  simp [List.length_take, min_eq_left h]

/-- Short inputs: right-aligned, left-padded with '0'. -/
theorem normalize_zip_short (z : List Char) (h : z.length < 5) :
    normalize_zip z = List.replicate (5 - z.length) '0' ++ z := by
  simp only [normalize_zip, write_at]
  rw [min_eq_left (le_of_lt h), List.take_length]
  rw [List.take_replicate, List.drop_replicate]
  rw [min_eq_left (by omega : 5 - z.length ≤ 5)]
  rw [show 5 - (5 - z.length + z.length) = 0 by omega]
  simp

/-- The key depends only on the first five characters of the input. -/
theorem normalize_zip_take (z : List Char) :
    normalize_zip (z.take 5) = normalize_zip z := by
  by_cases h : z.length ≤ 5
  · rw [List.take_of_length_le h]
  · have h5 : 5 ≤ z.length := le_of_not_le h
    rw [normalize_zip_long z h5]
    rw [normalize_zip_long (z.take 5) (by simp [List.length_take]; omega)]
    rw [List.take_take]
    simp

/-- C10: `zipdb_lookup` normalizes its input to exactly five bytes before the
binary search — longer inputs are truncated to their first five characters,
shorter ones right-aligned and left-padded with '0' (so "614" is looked up as
"00614") — and the search key never uses more than the first five characters
of the input. -/
theorem zipdb_lookup_normalization (db : List ZipEntry) (z : List Char) :
    (normalize_zip z).length = 5 ∧
    (5 ≤ z.length → normalize_zip z = z.take 5) ∧
    (z.length < 5 → normalize_zip z = List.replicate (5 - z.length) '0' ++ z) ∧
    normalize_zip ['6', '1', '4'] = ['0', '0', '6', '1', '4'] ∧
    zipdb_lookup db z = zipdb_lookup db (z.take 5) := by
  refine ⟨normalize_zip_length z, normalize_zip_long z, normalize_zip_short z, by decide, ?_⟩
  unfold zipdb_lookup
  rw [normalize_zip_take z]

/-- Witness for C10 at concrete inputs. -/
theorem zipdb_lookup_normalization_witness :
    normalize_zip ['9', '4', '1', '0', '3', '9', '9'] = ['9', '4', '1', '0', '3'] ∧
    normalize_zip ['6', '1', '4'] = ['0', '0', '6', '1', '4'] :=
  ⟨(zipdb_lookup_normalization [] ['9', '4', '1', '0', '3', '9', '9']).2.1 (by decide),
   (zipdb_lookup_normalization [] ['6', '1', '4']).2.2.2.1⟩

/-- The success counter is positive iff some attempted CRTC succeeded. -/
theorem set_temp_fold_fst_pos_iff (a : ℕ → Bool) (oc : ℕ → ℤ) (n : ℕ) :
    0 < (set_temp_fold a oc n).1 ↔ ∃ i, i < n ∧ a i = true ∧ oc i = 0 := by
  induction n with
  | zero =>
    simp [set_temp_fold]
  | succ n ih =>
    simp only [set_temp_fold]
    by_cases ha : a n
    · by_cases ho : oc n = 0
      · simp only [ha, ho, if_true]
        exact iff_of_true (Nat.succ_pos _) ⟨n, Nat.lt_succ_self n, ha, ho⟩
      · simp only [ha, ho, if_true, if_false]
        rw [ih]
        constructor
        · rintro ⟨i, hi, hai, hoi⟩; exact ⟨i, by omega, hai, hoi⟩
        · rintro ⟨i, hi, hai, hoi⟩
          refine ⟨i, ?_, hai, hoi⟩
          rcases Nat.lt_succ_iff_lt_or_eq.mp hi with h | h
          · exact h
          · subst h; exact absurd hoi ho
    · have ha' : a n = false := by revert ha; cases a n <;> simp
      rw [ha']
      simp only [Bool.false_eq_true, if_false]
      rw [ih]
      constructor
      · rintro ⟨i, hi, hai, hoi⟩; exact ⟨i, by omega, hai, hoi⟩
      · rintro ⟨i, hi, hai, hoi⟩
        refine ⟨i, ?_, hai, hoi⟩
        rcases Nat.lt_succ_iff_lt_or_eq.mp hi with h | h
        · exact h
        · subst h; exact absurd hai ha

/-- Among the CRTC indices below `n` there is a last attempted one. -/
theorem exists_last_attempt (a : ℕ → Bool) (n : ℕ) (h : ∃ i, i < n ∧ a i = true) :
    ∃ j, j < n ∧ a j = true ∧ ∀ i, j < i → i < n → a i = false := by
  induction n with
  | zero => obtain ⟨i, hi, _⟩ := h; omega
  | succ n ih =>
    by_cases han : a n = true
    · exact ⟨n, Nat.lt_succ_self n, han, fun i h1 h2 => by omega⟩
    · obtain ⟨i, hi, hai⟩ := h
      have hi' : i < n := by
        rcases Nat.lt_succ_iff_lt_or_eq.mp hi with h | h
        · exact h
        · subst h; exact absurd hai han
      obtain ⟨j, hj, haj, hmax⟩ := ih ⟨i, hi', hai⟩
      refine ⟨j, by omega, haj, fun i h1 h2 => ?_⟩
      rcases Nat.lt_succ_iff_lt_or_eq.mp h2 with h | h
      · exact hmax i h1 h
      · subst h
        revert han; cases a i <;> simp

/-- When every attempted CRTC fails, `last_err` is the outcome of the last
attempted CRTC. -/
theorem set_temp_fold_snd_all_fail (a : ℕ → Bool) (oc : ℕ → ℤ) (j : ℕ) :
    ∀ n, (∀ i, i < n → a i = true → oc i ≠ 0) → j < n → a j = true →
      (∀ i, j < i → i < n → a i = false) →
      (set_temp_fold a oc n).2 = oc j := by
  intro n
  induction n with
  | zero => intro _ hj _ _; omega
  | succ n ih =>
    intro hall hj haj hmax
    simp only [set_temp_fold]
    by_cases ha : a n
    · have hjn : j = n := by
        by_contra hne
        have := hmax n (by omega) (Nat.lt_succ_self n)
        rw [this] at ha; exact absurd ha (by simp)
      subst hjn
      have hno : oc j ≠ 0 := hall j (Nat.lt_succ_self j) haj
      simp [ha, hno]
    · have ha' : a n = false := by revert ha; cases a n <;> simp
      have hjn : j < n := by
        rcases Nat.lt_succ_iff_lt_or_eq.mp hj with h | h
        · exact h
        · subst h; rw [ha'] at haj; exact absurd haj (by simp)
      rw [ha']
      simp only [Bool.false_eq_true, if_false]
      exact ih (fun i hi hai => hall i (by omega) hai) hjn haj
        (fun i h1 h2 => hmax i h1 (by omega))

/-- Characterization of the common `set_temperature` result, given at least
one attempted CRTC. -/
theorem set_temp_result_iff (a : ℕ → Bool) (oc : ℕ → ℤ) (n : ℕ)
    (hex : ∃ i, i < n ∧ a i = true) :
    ((if 0 < (set_temp_fold a oc n).1 then (0:ℤ) else (set_temp_fold a oc n).2) = 0 ↔
      ∃ i, i < n ∧ a i = true ∧ oc i = 0) := by
  by_cases hp : 0 < (set_temp_fold a oc n).1
  · rw [if_pos hp]
    exact iff_of_true rfl ((set_temp_fold_fst_pos_iff a oc n).mp hp)
  · rw [if_neg hp]
    constructor
    · intro hz
      by_contra hno
      push_neg at hno
      obtain ⟨j, hj, haj, hmax⟩ := exists_last_attempt a n hex
      have hall : ∀ i, i < n → a i = true → oc i ≠ 0 := fun i hi hai => hno i hi hai
      have := set_temp_fold_snd_all_fail a oc j n hall hj haj hmax
      rw [this] at hz
      exact hall j hj haj hz
    · intro hsucc
      exact absurd ((set_temp_fold_fst_pos_iff a oc n).mpr hsucc) hp

/-- C8 counterexample: a DRM handle whose single CRTC reports `gamma_size 0`
(reachable: `meridian_drm_init` zeroes the size on a failed `MODE_GETCRTC`
and still returns success) attempts nothing, leaves `last_err = MERIDIAN_OK`,
and `set_temperature` reports success although no per-CRTC set succeeded —
refuting "success if and only if at least one per-CRTC set succeeds". -/
theorem set_temperature_vacuous_success :
    drm_set_temperature (fun _ => 0) (fun _ => -5) 1 = 0 ∧
    (∀ i, i < 1 → ¬ (1:ℤ) < (fun _ => (0:ℤ)) i) := by
  constructor
  · decide
  · intro i _
    simp

/-- C8 (amended): for every backend, provided at least one CRTC passes the
backend's usability test, `set_temperature` returns `MERIDIAN_OK` iff at
least one per-CRTC set succeeds (so one CRTC's failure never prevents the
others); and when every usable CRTC fails, the returned error is the outcome
of the last usable CRTC.  With no usable CRTC the loops return `MERIDIAN_OK`
vacuously (see the counterexample). -/
theorem set_temperature_spec (gs : ℕ → ℤ) (failed : ℕ → Bool) (oc : ℕ → ℤ) (n : ℕ) :
    ((∃ i, i < n ∧ 1 < gs i) →
      (drm_set_temperature gs oc n = 0 ↔ ∃ i, i < n ∧ 1 < gs i ∧ oc i = 0)) ∧
    ((∃ i, i < n ∧ 0 < gs i) →
      (x11_set_temperature gs oc n = 0 ↔ ∃ i, i < n ∧ 0 < gs i ∧ oc i = 0)) ∧
    ((∃ i, i < n ∧ failed i = false ∧ 0 < gs i) →
      (wl_set_temperature failed gs oc n = 0 ↔
        ∃ i, i < n ∧ failed i = false ∧ 0 < gs i ∧ oc i = 0)) ∧
    (0 < n → (gnome_set_temperature oc n = 0 ↔ ∃ i, i < n ∧ oc i = 0)) ∧
    ((∃ i, i < n ∧ 1 < gs i) → (∀ i, i < n → 1 < gs i → oc i ≠ 0) →
      ∃ j, j < n ∧ 1 < gs j ∧ drm_set_temperature gs oc n = oc j ∧
        ∀ i, j < i → i < n → ¬ 1 < gs i) := by
  refine ⟨?_, ?_, ?_, ?_, ?_⟩
  · intro hex
    unfold drm_set_temperature
    rw [set_temp_result_iff _ oc n (by simpa using hex)]
    simp
  · intro hex
    unfold x11_set_temperature
    rw [set_temp_result_iff _ oc n (by simpa using hex)]
    simp
  · intro hex
    unfold wl_set_temperature
    rw [set_temp_result_iff _ oc n (by simpa using hex)]
    simp [and_assoc]
  · intro hn
    unfold gnome_set_temperature
    rw [set_temp_result_iff _ oc n ⟨0, hn, rfl⟩]
    simp
  · intro hex hall
    have hex' : ∃ i, i < n ∧ (fun i => decide (1 < gs i)) i = true := by simpa using hex
    obtain ⟨j, hj, haj, hmax⟩ := exists_last_attempt _ n hex'
    have hall' : ∀ i, i < n → (fun i => decide (1 < gs i)) i = true → oc i ≠ 0 := by
      intro i hi hai
      exact hall i hi (by simpa using hai)
    refine ⟨j, hj, by simpa using haj, ?_, ?_⟩
    · unfold drm_set_temperature
      have hsnd := set_temp_fold_snd_all_fail _ oc j n hall' hj haj hmax
      rw [if_neg ?_, hsnd]
      intro hp
      obtain ⟨i, hi, hai, hoi⟩ := (set_temp_fold_fst_pos_iff _ oc n).mp hp
      exact hall' i hi hai hoi
    · intro i h1 h2
      have := hmax i h1 h2
      simpa using this

/-- Witness for C8 (amended): two CRTCs, the first per-CRTC set fails, the
second succeeds; DRM `set_temperature` reports success. -/
theorem set_temperature_spec_witness :
    drm_set_temperature (fun _ => 256) (fun i => if i = 0 then -4 else 0) 2 = 0 :=
  ((set_temperature_spec (fun _ => 256) (fun _ => false)
      (fun i => if i = 0 then -4 else 0) 2).1
    ⟨0, by norm_num⟩).mpr ⟨1, by norm_num⟩

/-! ### JSON round-trip lemmas (C7) -/

/-- The digit-value list rendered by `natToChars`. -/
theorem natToChars_eq (n : ℕ) :
    natToChars n = (if n = 0 then [0] else (Nat.digits 10 n).reverse).map digitChar := by
  unfold natToChars
  split
  · simp [digitChar]
  · rw [List.map_reverse]

/-- All rendered digit values are below 10. -/
theorem digitsOf_lt (n : ℕ) :
    ∀ d ∈ (if n = 0 then [0] else (Nat.digits 10 n).reverse), d < 10 := by
  intro d hd
  split at hd
  · simp at hd; omega
  · rw [List.mem_reverse] at hd
    exact Nat.digits_lt_base (by norm_num) hd

/-- Character-class facts about a decimal digit character. -/
theorem digitChar_props {d : ℕ} (hd : d < 10) :
    ('0' ≤ digitChar d ∧ digitChar d ≤ '9') ∧ (digitChar d).toNat - 48 = d ∧
    is_ws (digitChar d) = false ∧ digitChar d ≠ '-' ∧ digitChar d ≠ '+' ∧
    digitChar d ≠ '"' ∧ digitChar d ≠ '{' ∧ digitChar d ≠ '[' ∧
    digitChar d ≠ 't' ∧ digitChar d ≠ 'f' ∧ digitChar d ≠ 'n' ∧
    digitChar d ≠ '.' ∧ digitChar d ≠ 'e' ∧ digitChar d ≠ 'E' := by
  interval_cases d <;> exact (by decide)

/-- The remainder begins with a character that stops a digit run. -/
def dstop : List Char → Prop
  | [] => True
  | c :: _ => ¬ ('0' ≤ c ∧ c ≤ '9')

/-- `take_digits` consumes exactly a rendered digit run. -/
theorem take_digits_map (ds : List ℕ) (hds : ∀ d ∈ ds, d < 10) (rest : List Char)
    (hrest : dstop rest) :
    take_digits (ds.map digitChar ++ rest) = (ds, rest) := by
  induction ds with
  | nil =>
    cases rest with
    | nil => rfl
    | cons c r =>
      simp only [List.map_nil, List.nil_append, take_digits]
      rw [if_neg hrest]
  | cons d ds ih =>
    have hd := digitChar_props (hds d (by simp))
    simp only [List.map_cons, List.cons_append, take_digits, List.append_eq]
    rw [if_pos hd.1, ih (fun x hx => hds x (by simp [hx]))]
    rw [hd.2.1]

/-- Horner evaluation of a reversed little-endian digit list. -/
theorem foldl_reverse_digits (L : List ℕ) (a : ℕ) :
    L.reverse.foldl (fun x d => x * 10 + d) a = a * 10 ^ L.length + Nat.ofDigits 10 L := by
  induction L generalizing a with
  | nil => simp
  | cons d L ih =>
    simp only [List.reverse_cons, List.foldl_append, List.foldl_cons, List.foldl_nil,
      List.length_cons, Nat.ofDigits_cons, ih]
    ring

/-- `digitsVal` inverts the decimal rendering. -/
theorem digitsVal_digitsOf (n : ℕ) :
    digitsVal (if n = 0 then [0] else (Nat.digits 10 n).reverse) = n := by
  unfold digitsVal
  split
  · simp [*]
  · rw [foldl_reverse_digits]
    simp [Nat.ofDigits_digits]

/-- The remainder begins with a character that stops a number. -/
def nstop : List Char → Prop
  | [] => True
  | c :: _ => ¬ ('0' ≤ c ∧ c ≤ '9') ∧ c ≠ '.' ∧ c ≠ 'e' ∧ c ≠ 'E'

theorem nstop_dstop {r : List Char} (h : nstop r) : dstop r := by
  cases r with
  | nil => trivial
  | cons c t => exact h.1

/-- Decompose the rendering of a natural number into its first digit. -/
theorem natToChars_cons (n : ℕ) :
    ∃ d ds, (if n = 0 then [0] else (Nat.digits 10 n).reverse) = d :: ds ∧
      natToChars n = digitChar d :: ds.map digitChar ∧ d < 10 ∧ ∀ x ∈ ds, x < 10 := by
  have hne : (if n = 0 then [0] else (Nat.digits 10 n).reverse) ≠ [] := by
    split
    · simp
    · simp only [ne_eq, List.reverse_eq_nil_iff]
      exact Nat.digits_ne_nil_iff_ne_zero.mpr (by assumption)
  obtain ⟨d, ds, hcons⟩ := List.exists_cons_of_ne_nil hne
  refine ⟨d, ds, hcons, ?_, ?_, ?_⟩
  · rw [natToChars_eq, hcons, List.map_cons]
  · exact digitsOf_lt n d (by rw [hcons]; simp)
  · intro x hx
    exact digitsOf_lt n x (by rw [hcons]; simp [hx])

theorem skip_ws_cons_not {c : Char} (h : is_ws c = false) (r : List Char) :
    skip_ws (c :: r) = c :: r := by
  simp [skip_ws, h]

/-- `strtod` model applied to a rendered natural number. -/
theorem parse_number_nat (n : ℕ) (rest : List Char) (h : nstop rest) :
    parse_number_q (natToChars n ++ rest) = some ((n : ℚ), rest) := by
  obtain ⟨d, ds, hif, hmap, hd10, hds10⟩ := natToChars_cons n
  have hp := digitChar_props hd10
  have htd : take_digits (natToChars n ++ rest) =
      (if n = 0 then [0] else (Nat.digits 10 n).reverse, rest) := by
    rw [natToChars_eq]
    exact take_digits_map _ (digitsOf_lt n) rest (nstop_dstop h)
  rw [hmap]
  simp only [parse_number_q, List.cons_append]
  rw [if_neg hp.2.2.2.1, if_neg hp.2.2.2.2.1]
  dsimp only
  rw [show digitChar d :: (List.map digitChar ds ++ rest) = natToChars n ++ rest by
    rw [hmap]; simp]
  rw [htd]
  simp only [hif]
  cases rest with
  | nil =>
    dsimp only
    simp only [parse_exponent]
    rw [if_neg (by simp)]
    rw [← hif, digitsVal_digitsOf]
    norm_num [digitsVal]
  | cons c r =>
    dsimp only
    rw [if_neg h.2.1]
    rw [if_neg (by simp)]
    simp only [parse_exponent]
    rw [if_neg (by push_neg; exact ⟨h.2.2.1, h.2.2.2⟩)]
    rw [← hif, digitsVal_digitsOf]
    norm_num [digitsVal]

/-- `strtod` model applied to a rendered integer. -/
theorem parse_number_int (z : ℤ) (rest : List Char) (h : nstop rest) :
    parse_number_q (intToChars z ++ rest) = some ((z : ℚ), rest) := by
  unfold intToChars
  by_cases hz : z < 0
  · rw [if_pos hz]
    obtain ⟨d, ds, hif, hmap, hd10, hds10⟩ := natToChars_cons z.natAbs
    have htd : take_digits (natToChars z.natAbs ++ rest) =
        (if z.natAbs = 0 then [0] else (Nat.digits 10 z.natAbs).reverse, rest) := by
      rw [natToChars_eq]
      exact take_digits_map _ (digitsOf_lt z.natAbs) rest (nstop_dstop h)
    simp only [parse_number_q, List.cons_append]
    simp only [if_true]
    rw [htd]
    simp only [hif]
    cases rest with
    | nil =>
      dsimp only
      simp only [parse_exponent]
      rw [if_neg (by simp)]
      rw [← hif, digitsVal_digitsOf]
      have hcast : ((z.natAbs : ℕ) : ℚ) = -(z : ℚ) := by
        rw [Int.cast_natAbs]
        simp [abs_of_neg (by exact_mod_cast hz : (z:ℚ) < 0)]
      rw [hcast]
      norm_num [digitsVal]
    | cons c r =>
      dsimp only
      rw [if_neg h.2.1]
      rw [if_neg (by simp)]
      simp only [parse_exponent]
      rw [if_neg (by push_neg; exact ⟨h.2.2.1, h.2.2.2⟩)]
      rw [← hif, digitsVal_digitsOf]
      have hcast : ((z.natAbs : ℕ) : ℚ) = -(z : ℚ) := by
        rw [Int.cast_natAbs]
        simp [abs_of_neg (by exact_mod_cast hz : (z:ℚ) < 0)]
      rw [hcast]
      norm_num [digitsVal]
  · rw [if_neg hz]
    rw [parse_number_nat z.toNat rest h]
    have hcast : ((z.toNat : ℕ) : ℚ) = (z : ℚ) := by
      exact_mod_cast Int.toNat_of_nonneg (not_lt.mp hz)
    rw [hcast]

theorem skip_ws_space (r : List Char) : skip_ws (' ' :: r) = skip_ws r := by
  simp [skip_ws, is_ws]

theorem skip_ws_intToChars (z : ℤ) (r : List Char) :
    skip_ws (intToChars z ++ r) = intToChars z ++ r := by
  unfold intToChars
  by_cases hz : z < 0
  · rw [if_pos hz]
    exact skip_ws_cons_not (by decide) _
  · rw [if_neg hz]
    obtain ⟨d, ds, _, hmap, hd10, _⟩ := natToChars_cons z.toNat
    rw [hmap]
    exact skip_ws_cons_not (digitChar_props hd10).2.2.1 _

theorem skip_ws_bool (b : Bool) (r : List Char) :
    skip_ws ((if b then tTrue else tFalse) ++ r) = (if b then tTrue else tFalse) ++ r := by
  cases b <;> simp [tTrue, tFalse, skip_ws, is_ws]

/-- `parse_value` on a rendered boolean literal. -/
theorem parse_value_bool (f : ℕ) (b : Bool) (rest : List Char) :
    parse_value (f + 1) ((if b then tTrue else tFalse) ++ rest) =
      some (.bool b, rest) := by
  cases b <;> simp [tTrue, tFalse, parse_value, skip_ws, is_ws, parse_literal]

/-- `parse_value` on a rendered integer. -/
theorem parse_value_int (f : ℕ) (z : ℤ) (rest : List Char) (h : nstop rest) :
    parse_value (f + 1) (intToChars z ++ rest) = some (.num (z : ℚ), rest) := by
  by_cases hz : z < 0
  · have hshape : intToChars z ++ rest = '-' :: (natToChars z.natAbs ++ rest) := by
      unfold intToChars
      rw [if_pos hz]
      simp
    rw [hshape]
    simp only [parse_value]
    rw [skip_ws_cons_not (by decide)]
    dsimp only
    rw [if_neg (by decide), if_neg (by decide), if_neg (by decide), if_neg (by decide),
      if_pos (Or.inl rfl)]
    rw [show ('-' : Char) :: (natToChars z.natAbs ++ rest) = intToChars z ++ rest from
      hshape.symm]
    rw [parse_number_int z rest h]
  · obtain ⟨d, ds, hif, hmap, hd10, hds10⟩ := natToChars_cons z.toNat
    obtain ⟨hrange, htoNat, hws, hm, hpl, hq, hbrace, hbrack, ht, hf, hn, hdot, he, hE⟩ :=
      digitChar_props hd10
    have hshape : intToChars z ++ rest = digitChar d :: (List.map digitChar ds ++ rest) := by
      unfold intToChars
      rw [if_neg hz, hmap]
      simp
    rw [hshape]
    simp only [parse_value]
    rw [skip_ws_cons_not hws]
    dsimp only
    rw [if_neg hq, if_neg hbrace, if_neg hbrack, if_neg (by simp [ht, hf, hn]),
      if_pos (Or.inr hrange)]
    rw [show digitChar d :: (List.map digitChar ds ++ rest) = intToChars z ++ rest from
      hshape.symm]
    rw [parse_number_int z rest h]

/-- Member-loop step: parse one `"key": value,` line and continue. -/
theorem parse_members_step_cont (f : ℕ) (s k vtext rest : List Char) (v : JsonValue)
    (acc : List (List Char × JsonValue))
    (hs : skip_ws s = '"' :: (k ++ '"' :: ':' :: ' ' :: (vtext ++ ',' :: '\n' :: rest)))
    (hkey : parse_string_raw ((k ++ '"' :: ':' :: ' ' :: (vtext ++ ',' :: '\n' :: rest)).length + 1)
        (k ++ '"' :: ':' :: ' ' :: (vtext ++ ',' :: '\n' :: rest)) =
      some (k, ':' :: ' ' :: (vtext ++ ',' :: '\n' :: rest)))
    (hval : parse_value f (skip_ws (' ' :: (vtext ++ ',' :: '\n' :: rest))) =
      some (v, ',' :: '\n' :: rest)) :
    parse_members (f + 1) s acc = parse_members f ('\n' :: rest) (acc ++ [(k, v)]) := by
  simp only [parse_members]
  rw [hs]
  try dsimp only
  rw [if_pos (show ('"' : Char) = '"' from rfl)]
  rw [hkey]
  try dsimp only
  rw [skip_ws_cons_not (by decide)]
  try dsimp only
  rw [if_pos (show (':' : Char) = ':' from rfl)]
  rw [hval]
  try dsimp only
  rw [skip_ws_cons_not (by decide)]
  try dsimp only
  rw [if_pos (show (',' : Char) = ',' from rfl)]

/-- Member-loop step: parse the final `"key": value` line and close the
object. -/
theorem parse_members_step_end (f : ℕ) (s k vtext rest : List Char) (v : JsonValue)
    (acc : List (List Char × JsonValue))
    (hs : skip_ws s = '"' :: (k ++ '"' :: ':' :: ' ' :: (vtext ++ '\n' :: '}' :: rest)))
    (hkey : parse_string_raw ((k ++ '"' :: ':' :: ' ' :: (vtext ++ '\n' :: '}' :: rest)).length + 1)
        (k ++ '"' :: ':' :: ' ' :: (vtext ++ '\n' :: '}' :: rest)) =
      some (k, ':' :: ' ' :: (vtext ++ '\n' :: '}' :: rest)))
    (hval : parse_value f (skip_ws (' ' :: (vtext ++ '\n' :: '}' :: rest))) =
      some (v, '\n' :: '}' :: rest)) :
    parse_members (f + 1) s acc = some (.obj (acc ++ [(k, v)]), rest) := by
  simp only [parse_members]
  rw [hs]
  try dsimp only
  rw [if_pos (show ('"' : Char) = '"' from rfl)]
  rw [hkey]
  try dsimp only
  rw [skip_ws_cons_not (by decide)]
  try dsimp only
  rw [if_pos (show (':' : Char) = ':' from rfl)]
  rw [hval]
  try dsimp only
  rw [show skip_ws ('\n' :: '}' :: rest) = '}' :: rest by simp [skip_ws, is_ws]]
  try dsimp only
  rw [if_neg (show ¬ ('}' : Char) = ',' by decide)]
  rw [if_pos (show ('}' : Char) = '}' from rfl)]

/-- A plain string (no quote, no backslash) parses to itself, with any
sufficient fuel. -/
theorem parse_string_raw_plain (k : List Char) (hk : ∀ c ∈ k, c ≠ '"' ∧ c ≠ '\\') :
    ∀ f r, k.length + 1 ≤ f → parse_string_raw f (k ++ '"' :: r) = some (k, r) := by
  induction k with
  | nil =>
    intro f r hf
    obtain ⟨g, rfl⟩ : ∃ g, f = g + 1 := ⟨f - 1, by omega⟩
    simp only [List.nil_append, parse_string_raw]
    simp
  | cons c k ih =>
    intro f r hf
    obtain ⟨g, rfl⟩ : ∃ g, f = g + 1 := ⟨f - 1, by omega⟩
    have hc := hk c (by simp)
    rw [show (c :: k) ++ '"' :: r = c :: (k ++ '"' :: r) from rfl]
    simp only [parse_string_raw]
    rw [if_neg hc.1, if_neg hc.2]
    rw [ih (fun x hx => hk x (by simp [hx])) g r (by simp at hf; omega)]

theorem nstop_comma (X : List Char) : nstop (',' :: X) :=
  ⟨by decide, by decide, by decide, by decide⟩

theorem nstop_newline (X : List Char) : nstop ('\n' :: X) :=
  ⟨by decide, by decide, by decide, by decide⟩

/-- The serializer output, segmented at the member boundaries. -/
theorem save_text_eq (o : OverrideState) :
    config_save_override_text o = '{' :: '\n' :: seg1 o := by
  simp [config_save_override_text, key_colon, seg1, tail1, seg2, tail2, seg3, tail3,
    seg4, tail4, seg5, tail5]

/-- Parsing the serialized override yields the five-member object. -/
theorem json_parse_save (o : OverrideState) :
    json_parse (config_save_override_text o) =
      some (.obj [(kActive, .bool o.active), (kTargetTemp, .num (o.target_temp : ℚ)),
        (kDurationMinutes, .num (o.duration_minutes : ℚ)),
        (kIssuedAt, .num (o.issued_at : ℚ)), (kStartTemp, .num (o.start_temp : ℚ))]) := by
  have hlen : 6 ≤ (config_save_override_text o).length := by
    rw [save_text_eq o]
    simp [seg1, kActive]
  obtain ⟨m, hm⟩ : ∃ m, (config_save_override_text o).length = m + 6 :=
    ⟨(config_save_override_text o).length - 6, by omega⟩
  -- step hypotheses for the five members
  have hs1 : skip_ws ('"' :: (kActive ++ '"' :: ':' :: ' ' ::
      ((if o.active then tTrue else tFalse) ++ ',' :: '\n' :: seg2 o))) =
      '"' :: (kActive ++ '"' :: ':' :: ' ' ::
      ((if o.active then tTrue else tFalse) ++ ',' :: '\n' :: seg2 o)) :=
    skip_ws_cons_not (by decide) _
  have hkey1 := parse_string_raw_plain kActive (by decide)
    ((kActive ++ '"' :: ':' :: ' ' ::
      ((if o.active then tTrue else tFalse) ++ ',' :: '\n' :: seg2 o)).length + 1)
    (':' :: ' ' :: ((if o.active then tTrue else tFalse) ++ ',' :: '\n' :: seg2 o))
    (by simp [kActive])
  have hval1 : parse_value (m + 5) (skip_ws (' ' ::
      ((if o.active then tTrue else tFalse) ++ ',' :: '\n' :: seg2 o))) =
      some (.bool o.active, ',' :: '\n' :: seg2 o) := by
    rw [skip_ws_space, skip_ws_bool]
    rw [show m + 5 = (m + 4) + 1 from rfl]
    exact parse_value_bool (m + 4) o.active _
  have hs2 : skip_ws ('\n' :: seg2 o) = '"' :: (kTargetTemp ++ '"' :: ':' :: ' ' ::
      (intToChars o.target_temp ++ ',' :: '\n' :: seg3 o)) := by
    simp [seg2, tail2, skip_ws, is_ws]
  have hkey2 := parse_string_raw_plain kTargetTemp (by decide)
    ((kTargetTemp ++ '"' :: ':' :: ' ' ::
      (intToChars o.target_temp ++ ',' :: '\n' :: seg3 o)).length + 1)
    (':' :: ' ' :: (intToChars o.target_temp ++ ',' :: '\n' :: seg3 o))
    (by simp [kTargetTemp])
  have hval2 : parse_value (m + 4) (skip_ws (' ' ::
      (intToChars o.target_temp ++ ',' :: '\n' :: seg3 o))) =
      some (.num (o.target_temp : ℚ), ',' :: '\n' :: seg3 o) := by
    rw [skip_ws_space, skip_ws_intToChars]
    rw [show m + 4 = (m + 3) + 1 from rfl]
    exact parse_value_int (m + 3) o.target_temp _ (nstop_comma _)
  have hs3 : skip_ws ('\n' :: seg3 o) = '"' :: (kDurationMinutes ++ '"' :: ':' :: ' ' ::
      (intToChars o.duration_minutes ++ ',' :: '\n' :: seg4 o)) := by
    simp [seg3, tail3, skip_ws, is_ws]
  have hkey3 := parse_string_raw_plain kDurationMinutes (by decide)
    ((kDurationMinutes ++ '"' :: ':' :: ' ' ::
      (intToChars o.duration_minutes ++ ',' :: '\n' :: seg4 o)).length + 1)
    (':' :: ' ' :: (intToChars o.duration_minutes ++ ',' :: '\n' :: seg4 o))
    (by simp [kDurationMinutes])
  have hval3 : parse_value (m + 3) (skip_ws (' ' ::
      (intToChars o.duration_minutes ++ ',' :: '\n' :: seg4 o))) =
      some (.num (o.duration_minutes : ℚ), ',' :: '\n' :: seg4 o) := by
    rw [skip_ws_space, skip_ws_intToChars]
    rw [show m + 3 = (m + 2) + 1 from rfl]
    exact parse_value_int (m + 2) o.duration_minutes _ (nstop_comma _)
  have hs4 : skip_ws ('\n' :: seg4 o) = '"' :: (kIssuedAt ++ '"' :: ':' :: ' ' ::
      (intToChars o.issued_at ++ ',' :: '\n' :: seg5 o)) := by
    simp [seg4, tail4, skip_ws, is_ws]
  have hkey4 := parse_string_raw_plain kIssuedAt (by decide)
    ((kIssuedAt ++ '"' :: ':' :: ' ' ::
      (intToChars o.issued_at ++ ',' :: '\n' :: seg5 o)).length + 1)
    (':' :: ' ' :: (intToChars o.issued_at ++ ',' :: '\n' :: seg5 o))
    (by simp [kIssuedAt])
  have hval4 : parse_value (m + 2) (skip_ws (' ' ::
      (intToChars o.issued_at ++ ',' :: '\n' :: seg5 o))) =
      some (.num (o.issued_at : ℚ), ',' :: '\n' :: seg5 o) := by
    rw [skip_ws_space, skip_ws_intToChars]
    rw [show m + 2 = (m + 1) + 1 from rfl]
    exact parse_value_int (m + 1) o.issued_at _ (nstop_comma _)
  have hs5 : skip_ws ('\n' :: seg5 o) = '"' :: (kStartTemp ++ '"' :: ':' :: ' ' ::
      (intToChars o.start_temp ++ '\n' :: '}' :: ['\n'])) := by
    simp [seg5, tail5, skip_ws, is_ws]
  have hkey5 := parse_string_raw_plain kStartTemp (by decide)
    ((kStartTemp ++ '"' :: ':' :: ' ' ::
      (intToChars o.start_temp ++ '\n' :: '}' :: ['\n'])).length + 1)
    (':' :: ' ' :: (intToChars o.start_temp ++ '\n' :: '}' :: ['\n']))
    (by simp [kStartTemp])
  have hval5 : parse_value (m + 1) (skip_ws (' ' ::
      (intToChars o.start_temp ++ '\n' :: '}' :: ['\n']))) =
      some (.num (o.start_temp : ℚ), '\n' :: '}' :: ['\n']) := by
    rw [skip_ws_space, skip_ws_intToChars]
    rw [show m + 1 = m + 1 from rfl]
    exact parse_value_int m o.start_temp _ (nstop_newline _)
  -- walk the parse
  unfold json_parse
  rw [hm, save_text_eq o]
  rw [show m + 6 + 1 = (m + 6) + 1 from rfl]
  simp only [parse_value]
  rw [skip_ws_cons_not (by decide)]
  try dsimp only
  rw [if_neg (by decide), if_pos (show ('{' : Char) = '{' from rfl)]
  simp only [parse_object, if_true]
  try dsimp only
  rw [show skip_ws ('\n' :: seg1 o) =
    '"' :: (kActive ++ '"' :: ':' :: ' ' :: tail1 o) from by simp [seg1, skip_ws, is_ws]]
  try dsimp only
  rw [if_neg (show ¬ ('"' : Char) = '}' by decide)]
  rw [show tail1 o = (if o.active then tTrue else tFalse) ++ ',' :: '\n' :: seg2 o from rfl]
  rw [show m + 6 = (m + 5) + 1 from rfl]
  rw [parse_members_step_cont (m + 5) _ _ _ _ _ _ hs1 hkey1 hval1]
  rw [show m + 5 = (m + 4) + 1 from rfl]
  rw [parse_members_step_cont (m + 4) _ _ _ _ _ _ hs2 hkey2 hval2]
  rw [show m + 4 = (m + 3) + 1 from rfl]
  rw [parse_members_step_cont (m + 3) _ _ _ _ _ _ hs3 hkey3 hval3]
  rw [show m + 3 = (m + 2) + 1 from rfl]
  rw [parse_members_step_cont (m + 2) _ _ _ _ _ _ hs4 hkey4 hval4]
  rw [show m + 2 = (m + 1) + 1 from rfl]
  rw [parse_members_step_end (m + 1) _ _ _ _ _ _ hs5 hkey5 hval5]
  simp [skip_ws, is_ws]

theorem qint_intCast (z : ℤ) : qint ((z : ℚ)) = z := by
  unfold qint
  split <;> simp

/-- C7: serializing an `OverrideState` with `config_save_override` and
deserializing the produced text with `config_load_override` preserves all
five fields, for every `OverrideState`; and deserialization is tolerant — an
object with all fields missing yields the zero/false defaults. -/
theorem config_override_roundtrip (o : OverrideState) :
    config_load_override_text (config_save_override_text o) = o ∧
    config_load_override_text ['{', '}'] = ⟨false, 0, 0, 0, 0⟩ := by
  constructor
  · unfold config_load_override_text
    rw [json_parse_save o]
    simp [json_get, json_bool, json_number, List.find?, kActive, kTargetTemp,
      kDurationMinutes, kIssuedAt, kStartTemp, qint_intCast]
  · unfold config_load_override_text json_parse
    simp [parse_value, parse_object, skip_ws, is_ws, json_get, List.find?]

end Abraxas
